import Mathlib

/-!
# Image loading manager (`js/image-manager.js`) and audio player (`js/audio.js`) of the blog

A shallow embedding of the `ImageManager` class: its fields, the admission
queue (`addToQueue`, `processQueue`), the load executor (`loadImage`), the
outcome handlers (`handleImageLoad`, `handleImageError`, `handleImageTimeout`),
the fallback ladder (`retryWithFallback`, `loadWithQualityReduction`,
`loadWithPlaceholder`), `showErrorState`, `retryImage` and the `offline` /
`online` listeners.

The browser is modelled by a list of pending tasks (armed timers and image
fetches whose callbacks point into the manager) and by events that resolve
one of them.  A fetch of `loadImage` resolves with a load, an error or the
expiry of its timeout; on a timeout `handleImageTimeout` clears `img.src`,
which makes the browser queue an `error` event on that image, so its
`onerror` handler runs `handleImageError` with the same retryCount afterwards
(the pending task `abortedError`).  Timers and events may come in any order.
Styling (class names, `style.display`), console output, the two preloaded
critical images and the statistics overlay are not part of the model: they
never feed back into the manager's fields.

Of the audio player the file embeds `transTime`, `formatTime` and the choice of
the next track in `audio.onended`; see the section on the audio player.
-/

namespace Blog

/-- Values the code writes to `container.dataset.loaded`. -/
inductive Marker where
  | success
  | compressed
  | placeholder
  deriving DecidableEq, Repr

/-- Address given to `img.src`: a path, or the object URL of the generated SVG. -/
inductive Url where
  | path (s : String)
  | svgBlob (width height : Nat)
  deriving DecidableEq, Repr

/-- The `dataset` of the retry button written by `showErrorState`. -/
structure RetryButton where
  src : String
  /-- The integer whose decimal text is `dataset.containerId`.  The text of an
  integer is never empty, so as a condition it is truthy, also for index 0. -/
  containerId : Int
  deriving DecidableEq, Repr

/-- One `.image-wrapper[data-src]` element, as far as the manager reads or writes it. -/
structure Container where
  /-- Field `dataset.src`. -/
  src : String
  /-- Field `dataset.loaded`, `none` when deleted or never set. -/
  loaded : Option Marker := none
  /-- Field `dataset.loading` is present. -/
  loading : Bool := false
  /-- The `src` of the `.lazy-image` child, `none` when there is no such child or no source. -/
  lazySrc : Option Url := none
  /-- The `.image-error` child exists and is displayed. -/
  errorShown : Bool := false
  /-- The `.image-retry-btn` child and its dataset. -/
  retryBtn : Option RetryButton := none
  offsetWidth : Nat := 0
  offsetHeight : Nat := 0
  deriving DecidableEq, Repr

/-- The counters of `this.stats`. -/
structure Stats where
  total : Nat
  loaded : Nat
  failed : Nat
  retries : Nat
  deriving DecidableEq, Repr

/-- The ways a fetch can resolve. -/
inductive Outcome where
  | load
  | error
  | timeout
  deriving DecidableEq, Repr

/-- A callback held by the browser for the manager; containers are named by
their index in `this.containers`. -/
inductive Task where
  /-- The `setTimeout` of `loadCriticalImages`: calls `loadImage(container, 0)`. -/
  | startTimer (c : Nat) (delay : Nat)
  /-- The `Image` created by `loadImage(container, retryCount)` with its timeout armed. -/
  | attempt (c : Nat) (retryCount : Nat) (src : String) (timeoutMs : Nat)
  /-- The `setTimeout` of `handleImageError`: calls `loadImage(container, retryCount + 1)`. -/
  | retryTimer (c : Nat) (retryCount : Nat) (delay : Nat)
  /-- The `setTimeout` of `retryWithFallback`. -/
  | fallbackTimer (c : Nat) (retryCount : Nat) (originalSrc : String) (delay : Nat)
  /-- The `Image` of `loadWithQualityReduction` for the compressed path. -/
  | compressedLoad (c : Nat) (src : String) (compressedSrc : String)
  /-- The `originalImg` created when the compressed path failed. -/
  | originalLoad (c : Nat) (src : String)
  /-- The `Image` of `loadWithPlaceholder`. -/
  | placeholderLoad (c : Nat) (url : Url)
  /-- The `error` event the browser queues on the image of
  `loadImage(container, retryCount)` when `handleImageTimeout` clears its `src`; the
  `onerror` handler is still attached and calls `handleImageError(container, retryCount)`. -/
  | abortedError (c : Nat) (retryCount : Nat)
  deriving DecidableEq, Repr

/-- The fields of an `ImageManager` instance together with the callbacks the
browser holds for it. -/
structure ImageManager where
  containers : List Container
  maxRetries : Nat
  timeout : Nat
  concurrentLimit : Int
  loadingQueue : List Nat
  currentLoadings : Int
  stats : Stats
  /-- Targets the `IntersectionObserver` still observes; `none` when the
  browser has no `IntersectionObserver` and the scroll fallback is used. -/
  observer : Option (List Nat)
  tasks : List Task
  deriving DecidableEq, Repr

/-- JavaScript `String.prototype.replace` with a string pattern: only the
first occurrence is replaced. -/
def replaceFirstChars (pat rep : List Char) : List Char → List Char
  | [] => []
  | c :: cs =>
    if pat.isPrefixOf (c :: cs) then rep ++ (c :: cs).drop pat.length
    else c :: replaceFirstChars pat rep cs

def replaceFirst (s pat rep : String) : String :=
  ⟨replaceFirstChars pat.data rep.data s.data⟩

namespace ImageManager

/-- Apply `f` to container `c`; nothing happens when `c` names no container. -/
def updateContainer (m : ImageManager) (c : Nat) (f : Container → Container) : ImageManager :=
  match m.containers[c]? with
  | none => m
  | some k => { m with containers := m.containers.set c (f k) }

/-- `showLoadingState(container)`: `dataset.loading = 'true'`, `delete dataset.loaded`,
the error element is hidden. -/
def showLoadingState (k : Container) : Container :=
  { k with loading := true, loaded := none, errorShown := false }

/-- `loadImage(container, retryCount)` with the `processQueue` it calls passed as `pq`. -/
def loadImageWith (pq : ImageManager → ImageManager) (m : ImageManager) (c retryCount : Nat) :
    ImageManager :=
  match m.containers[c]? with
  | none => m
  | some k =>
    if k.src = "" then m
    else if k.loaded = some Marker.success then
      pq { m with currentLoadings := m.currentLoadings - 1 }
    else
      { m with
        containers := m.containers.set c (showLoadingState k)
        tasks := m.tasks ++ [Task.attempt c retryCount k.src m.timeout] }

/-- The `while` loop of `processQueue`, unrolled at most `n` times; each round
shifts one container, so `loadingQueue.length` rounds are all there can be. -/
def processQueueN : Nat → ImageManager → ImageManager
  | 0, m => m
  | n + 1, m =>
    match m.loadingQueue with
    | [] => m
    | c :: rest =>
      if m.currentLoadings < m.concurrentLimit then
        processQueueN n (loadImageWith (processQueueN n)
          { m with loadingQueue := rest, currentLoadings := m.currentLoadings + 1 } c 0)
      else m

/-- `processQueue()`. -/
def processQueue (m : ImageManager) : ImageManager :=
  processQueueN m.loadingQueue.length m

/-- `loadImage(container, retryCount)`. -/
def loadImage (m : ImageManager) (c retryCount : Nat) : ImageManager :=
  loadImageWith processQueue m c retryCount

/-- `addToQueue(container)`. -/
def addToQueue (m : ImageManager) (c : Nat) : ImageManager :=
  processQueue { m with loadingQueue := m.loadingQueue ++ [c] }

/-- `handleImageLoad(container, img)`; `url` is `img.src`. -/
def handleImageLoad (m : ImageManager) (c : Nat) (url : Url) : ImageManager :=
  let m1 := m.updateContainer c
    (fun k => { k with loaded := some Marker.success, loading := false, lazySrc := some url })
  processQueue { m1 with
    stats := { m1.stats with loaded := m1.stats.loaded + 1 }
    currentLoadings := m1.currentLoadings - 1 }

/-- `showErrorState(container)`: the inner markup is replaced by the error
element with its retry button, whose dataset gets the source and the index. -/
def showErrorState (m : ImageManager) (c : Nat) : ImageManager :=
  m.updateContainer c (fun k => { k with
    lazySrc := none
    errorShown := true
    retryBtn := some { src := k.src, containerId := (c : Int) } })

/-- `handleImageError(container, retryCount)`. -/
def handleImageError (m : ImageManager) (c retryCount : Nat) : ImageManager :=
  let m1 := { m with
    stats := { m.stats with failed := m.stats.failed + 1, retries := m.stats.retries + 1 } }
  if retryCount < m1.maxRetries then
    { m1 with tasks := m1.tasks ++ [Task.retryTimer c retryCount (1000 * (retryCount + 1))] }
  else
    let m2 := m1.showErrorState c
    processQueue { m2 with currentLoadings := m2.currentLoadings - 1 }

/-- `retryWithFallback(container, retryCount)`: arms the 2000 ms timer. -/
def retryWithFallback (m : ImageManager) (c retryCount : Nat) : ImageManager :=
  match m.containers[c]? with
  | none => m
  | some k => { m with tasks := m.tasks ++ [Task.fallbackTimer c retryCount k.src 2000] }

/-- `handleImageTimeout(container, img, retryCount)`; the statement `img.src = ''` leaves
the image with a queued `error` event. -/
def handleImageTimeout (m : ImageManager) (c retryCount : Nat) : ImageManager :=
  let m1 := { m with tasks := m.tasks ++ [Task.abortedError c retryCount] }
  if retryCount < m1.maxRetries then
    m1.retryWithFallback c retryCount
  else
    let m2 := m1.showErrorState c
    processQueue { m2 with currentLoadings := m2.currentLoadings - 1 }

/-- `loadWithQualityReduction(container, src)`. -/
def loadWithQualityReduction (m : ImageManager) (c : Nat) (src : String) : ImageManager :=
  { m with tasks := m.tasks ++
      [Task.compressedLoad c src (replaceFirst src "/camera/" "/camera/compressed/")] }

/-- `loadWithPlaceholder(container)`. -/
def loadWithPlaceholder (m : ImageManager) (c : Nat) : ImageManager :=
  match m.containers[c]? with
  | none => m
  | some k =>
    let width := if k.offsetWidth = 0 then 400 else k.offsetWidth
    let height := if k.offsetHeight = 0 then 300 else k.offsetHeight
    { m with tasks := m.tasks ++ [Task.placeholderLoad c (Url.svgBlob width height)] }

/-- The callback of the timer armed by `retryWithFallback`. -/
def fallbackCallback (m : ImageManager) (c retryCount : Nat) (originalSrc : String) :
    ImageManager :=
  if retryCount = 1 then m.loadWithQualityReduction c originalSrc
  else if retryCount = 2 then m.loadWithPlaceholder c
  else m

/-- `retryImage(button)` for the button inside container `c`. -/
def retryImage (m : ImageManager) (c : Nat) : ImageManager :=
  match m.containers[c]? with
  | none => m
  | some k =>
    match k.retryBtn with
    | none => m
    | some b =>
      if 0 ≤ b.containerId then
        let i := b.containerId.toNat
        match m.containers[i]? with
        | none => m
        | some _ => (m.updateContainer i (fun t => { t with src := b.src })).loadImage i 0
      else m

/-- One pass of `checkVisibility` over the containers `cs` (indices, in list
order); `near` holds the containers inside the load area. -/
def checkVisibility (near : List Nat) : List Nat → ImageManager → ImageManager
  | [], m => m
  | c :: cs, m =>
    match m.containers[c]? with
    | none => checkVisibility near cs m
    | some k =>
      if k.loaded = none ∧ k.loading = false ∧ c ∈ near then
        checkVisibility near cs
          ((m.updateContainer c (fun t => { t with loading := true })).addToQueue c)
      else checkVisibility near cs m

/-- The constructor followed by `init()` on a page whose containers are `cs`. -/
def init (cs : List Container) (hasObserver : Bool) : ImageManager :=
  { containers := cs
    maxRetries := 3
    timeout := 10000
    concurrentLimit := 3
    loadingQueue := []
    currentLoadings := 0
    stats := { total := cs.length, loaded := 0, failed := 0, retries := 0 }
    observer := if hasObserver then some (List.range cs.length) else none
    tasks := (List.range (min 3 cs.length)).map (fun i => Task.startTimer i (i * 300)) }

/-- The `offline` listener, the manager existing. -/
def offline (m : ImageManager) : ImageManager :=
  { m with concurrentLimit := 0 }

/-- The `online` listener, the manager existing. -/
def online (m : ImageManager) : ImageManager :=
  processQueue { m with concurrentLimit := 3 }

end ImageManager

/-- What the browser can do next. -/
inductive Event where
  /-- The timer that is the `i`-th pending task expires. -/
  | timer (i : Nat)
  /-- The fetch that is the `i`-th pending task resolves with outcome `o`. -/
  | image (i : Nat) (o : Outcome)
  /-- The observer reports container `c` as intersecting. -/
  | intersect (c : Nat)
  /-- The scroll fallback runs `checkVisibility`; `near` are the containers in the load area. -/
  | scroll (near : List Nat)
  /-- The user clicks the retry button shown in container `c`. -/
  | retryClick (c : Nat)
  | offline
  | online
  deriving DecidableEq, Repr

namespace ImageManager

/-- Run the callback of pending task `t` (already taken off the task list) for outcome `o`;
`none` when `t` has no callback for `o`. -/
def resolve (m : ImageManager) (t : Task) (o : Outcome) : Option ImageManager :=
  match t, o with
  | Task.attempt c _ src _, Outcome.load => some (m.handleImageLoad c (Url.path src))
  | Task.attempt c r _ _, Outcome.error => some (m.handleImageError c r)
  | Task.attempt c r _ _, Outcome.timeout => some (m.handleImageTimeout c r)
  | Task.compressedLoad c _ csrc, Outcome.load =>
    some ((m.updateContainer c (fun k => { k with loaded := some Marker.compressed })).handleImageLoad
      c (Url.path csrc))
  | Task.compressedLoad c src _, Outcome.error =>
    some { m with tasks := m.tasks ++ [Task.originalLoad c src] }
  | Task.originalLoad c src, Outcome.load => some (m.handleImageLoad c (Url.path src))
  | Task.originalLoad c _, Outcome.error => some (m.showErrorState c)
  | Task.placeholderLoad c url, Outcome.load =>
    some ((m.updateContainer c (fun k => { k with loaded := some Marker.placeholder })).handleImageLoad
      c url)
  | Task.placeholderLoad _ _, Outcome.error => some m
  | Task.abortedError c r, Outcome.error => some (m.handleImageError c r)
  | _, _ => none

/-- Run the callback of an expired timer `t` (already taken off the task list). -/
def expire (m : ImageManager) (t : Task) : Option ImageManager :=
  match t with
  | Task.startTimer c _ => some (m.loadImage c 0)
  | Task.retryTimer c r _ => some (m.loadImage c (r + 1))
  | Task.fallbackTimer c r src _ => some (m.fallbackCallback c r src)
  | _ => none

/-- One browser event; an event that is not possible in `m` leaves `m` as it is. -/
def step (m : ImageManager) : Event → ImageManager
  | Event.timer i =>
    match m.tasks[i]? with
    | none => m
    | some t => (expire { m with tasks := m.tasks.eraseIdx i } t).getD m
  | Event.image i o =>
    match m.tasks[i]? with
    | none => m
    | some t => (resolve { m with tasks := m.tasks.eraseIdx i } t o).getD m
  | Event.intersect c =>
    match m.observer with
    | none => m
    | some obs =>
      if c ∈ obs then { m.addToQueue c with observer := some (obs.erase c) } else m
  | Event.scroll near =>
    match m.observer with
    | none => checkVisibility near (List.range m.containers.length) m
    | some _ => m
  | Event.retryClick c =>
    match m.containers[c]? with
    | none => m
    | some k => if k.errorShown then m.retryImage c else m
  | Event.offline => m.offline
  | Event.online => m.online

/-- Run a sequence of browser events. -/
def run (m : ImageManager) (es : List Event) : ImageManager :=
  es.foldl step m

end ImageManager

/-! ## Notions used to state the properties -/

/-- The container whose image a pending task is fetching, if the task is a fetch. -/
def Task.fetchOf : Task → Option Nat
  | Task.attempt c _ _ _ => some c
  | Task.compressedLoad c _ _ => some c
  | Task.originalLoad c _ => some c
  | Task.placeholderLoad c _ => some c
  | _ => none

namespace ImageManager

/-- The containers that have a fetch in flight, each listed once. -/
def loadingContainers (m : ImageManager) : List Nat :=
  (m.tasks.filterMap Task.fetchOf).dedup

/-- Container `c` shows the error element put there by `showErrorState`. -/
def isFailed (m : ImageManager) (c : Nat) : Bool :=
  match m.containers[c]? with
  | none => false
  | some k => k.errorShown

/-- The fetch that `loadImage(container, 0)` starts for container `c` in state `m`:
none when `c` names no container or the container has no source. -/
def attemptOf (m : ImageManager) (c : Nat) : Option Task :=
  match m.containers[c]? with
  | none => none
  | some k => if k.src = "" then none else some (Task.attempt c 0 k.src m.timeout)

/-- The number `min(|q|, max(L - a, 0))` for queue `q`, active count `a` and limit `L`. -/
def admitCount (m : ImageManager) : Nat :=
  min m.loadingQueue.length (max (m.concurrentLimit - m.currentLoadings) 0).toNat

/-- One round of a request whose fetch is the only pending task and ends in a load or
a plain error: the fetch resolves with outcome `o`, and the retry timer this arms, if
any, expires.  (A timeout leaves two tasks pending; it is followed with `run`.) -/
def deliver (m : ImageManager) (o : Outcome) : ImageManager :=
  step (step m (Event.image 0 o)) (Event.timer 0)

/-- The request receives the outcomes `os` one after the other. -/
def lifecycle (m : ImageManager) (os : List Outcome) : ImageManager :=
  os.foldl deliver m

end ImageManager

/-- A page with seven image containers. -/
def examplePage : List Container :=
  [{ src := "img/camera/1.jpg" }, { src := "img/camera/2.jpg" }, { src := "img/camera/3.jpg" },
   { src := "img/camera/4.jpg" }, { src := "img/camera/5.jpg" }, { src := "img/camera/6.jpg" },
   { src := "img/camera/7.jpg" }]

/-- The manager of `examplePage` after the three start-up fetches have loaded
and container 3, scrolled into view, was admitted through the queue: its first
fetch is the only pending task. -/
def exampleAdmitted : ImageManager :=
  (ImageManager.init examplePage true).run
    [Event.timer 0, Event.timer 0, Event.timer 0,
     Event.image 0 Outcome.load, Event.image 0 Outcome.load, Event.image 0 Outcome.load,
     Event.intersect 3]

/-- The manager of `examplePage` one second after start-up: the three start-up
fetches are in flight and containers 3, 4 and 5 have scrolled into view. -/
def exampleStartup : ImageManager :=
  (ImageManager.init examplePage true).run
    [Event.timer 0, Event.timer 0, Event.timer 0,
     Event.intersect 3, Event.intersect 4, Event.intersect 5]

/-- The manager of `examplePage` while offline: the three start-up fetches are in
flight, the network went away, and container 3 has scrolled into view and waits. -/
def exampleOffline : ImageManager :=
  (ImageManager.init examplePage true).run
    [Event.timer 0, Event.timer 0, Event.timer 0, Event.offline, Event.intersect 3]

/-- The manager of `examplePage` with a backlog built up while offline: container 0 was
loaded at start-up, containers 3 and 4 were admitted, then the network went away and
the observer reported containers 0, 5 and 6. -/
def exampleBacklog : ImageManager :=
  (ImageManager.init examplePage true).run
    [Event.timer 0, Event.timer 0, Event.timer 0, Event.image 0 Outcome.load,
     Event.intersect 3, Event.intersect 4, Event.offline,
     Event.intersect 0, Event.intersect 5, Event.intersect 6]

/-- As `exampleBacklog`, but the observer reported only containers 5 and 6 while offline. -/
def exampleBacklogFresh : ImageManager :=
  (ImageManager.init examplePage true).run
    [Event.timer 0, Event.timer 0, Event.timer 0, Event.image 0 Outcome.load,
     Event.intersect 3, Event.intersect 4, Event.offline,
     Event.intersect 5, Event.intersect 6]

namespace ImageManager

/-- The number of fetches pending for container `c`. -/
def fetchCount (m : ImageManager) (c : Nat) : Nat :=
  (m.tasks.filterMap Task.fetchOf).count c

end ImageManager

/-- The manager of `examplePage` right after start-up: the first start-up timer has
expired and the observer has reported container 0, which is in the first viewport. -/
def exampleDuplicate : ImageManager :=
  (ImageManager.init examplePage true).run [Event.timer 0, Event.intersect 0]

/-- The manager of `examplePage` after the three start-up timers have expired and the
fetch of container 0 has loaded. -/
def exampleFirstLoaded : ImageManager :=
  (ImageManager.init examplePage true).run
    [Event.timer 0, Event.timer 0, Event.timer 0, Event.image 0 Outcome.load]

/-! ## Audio player (`js/audio.js`)

The argument of `transTime` is a whole number of seconds held in a JavaScript number, that
is an IEEE 754 double: `value / 3600` and `value / 60` round to the nearest double (ties to
even), `%` is exact, `parseInt` reads the whole number at the head of the decimal text of
its argument, and a number is turned into text by `Number::toString` (the shortest digits
that read back as the same double, with an exponent from 10^21 on).  Strings are Lean
strings; their JavaScript `length` counts UTF-16 code units.  The values of
`Math.floor(Math.random() * 14)` are a parameter: `random i` is the value of the call
made when `attempts` is `i`. -/

/-- JavaScript `split` with a one-character separator, on the characters of a string. -/
def splitChars (sep : Char) : List Char → List (List Char)
  | [] => [[]]
  | c :: cs =>
    if c = sep then [] :: splitChars sep cs
    else
      match splitChars sep cs with
      | [] => [[c]]
      | p :: ps => (c :: p) :: ps

/-- The call `value.split(sep)`. -/
def split (value : String) (sep : Char) : List String :=
  (splitChars sep value.data).map String.mk

/-- The `length` of a JavaScript string: the number of its UTF-16 code units, two for a
character outside the Basic Multilingual Plane. -/
def jsLength (s : String) : Nat :=
  (s.data.map (fun c => if c.toNat < 65536 then 1 else 2)).sum

/-- The expression `s[i].length == 1 ? ("0" + s[i]) : s[i]` of `formatTime`. -/
def padPart (part : String) : String :=
  if jsLength part = 1 then "0" ++ part else part

/-- `formatTime(value)`: the loop over all parts but the last, then the last part. -/
def formatTime (value : String) : String :=
  let s := split value ':'
  let time := s.dropLast.foldl (fun t part => t ++ padPart part ++ ":") ""
  time ++ padPart (s.getLastD "")

/-- The position of the leading binary digit of `n`, found in at most `fuel` halvings. -/
def log2Fuel : Nat → Nat → Nat
  | 0, _ => 0
  | fuel + 1, n => if n < 2 then 0 else log2Fuel fuel (n / 2) + 1

/-- The integer part of the binary logarithm of `n`; 0 for `n = 0`. -/
def ilog2 (n : Nat) : Nat :=
  log2Fuel n n

/-- The integer nearest to the fraction `p / q`, the even one of the two nearest when
`p / q` lies half-way between them. -/
def roundHalfEven (p q : Nat) : Nat :=
  if q < 2 * (p % q) ∨ (2 * (p % q) = q ∧ p / q % 2 = 1) then p / q + 1 else p / q

/-- The double nearest to the fraction `p / q` (53 significant bits, round to nearest,
ties to even), given as a fraction `(num, den)` whose denominator is a power of two.
This is the result of the division `p / q` of two whole-number doubles; neither
underflow nor overflow is modelled (the quotient of a whole number by 60 or 3600 is
zero or lies between 2^-12 and the largest double). -/
def toDouble (p q : Nat) : Nat × Nat :=
  if p = 0 then (0, 1)
  else
    let lp := ilog2 p
    let lq := ilog2 q
    let up := if p * 2 ^ lq < q * 2 ^ lp then 53 + lq else 52 + lq
    if lp ≤ up then (roundHalfEven (p * 2 ^ (up - lp)) q, 2 ^ (up - lp))
    else (roundHalfEven p (q * 2 ^ (lp - up)) * 2 ^ (lp - up), 1)

/-- The double nearest to the whole number `n`; it is a whole number itself. -/
def roundNat (n : Nat) : Nat :=
  (toDouble n 1).1 / (toDouble n 1).2

/-- The whole number `n` is a value of the Number type. -/
def isDouble (n : Nat) : Bool :=
  roundNat n = n

/-- The number of decimal digits of `n`, found in at most `fuel` divisions. -/
def digitsFuel : Nat → Nat → Nat
  | 0, _ => 1
  | fuel + 1, n => if n < 10 then 1 else digitsFuel fuel (n / 10) + 1

/-- The number of decimal digits of `n`. -/
def numDigits (n : Nat) : Nat :=
  digitsFuel n n

/-- The digits chosen by `Number::toString` for a whole-number double `x` of `n0` decimal
digits: the least number `k` of digits and the `k`-digit number `s` such that `s` followed
by zeros reads back as `x`.  Of the numbers of `k` digits only the two around `x` can be
nearest to it; when both read back as `x` the nearer one is taken, the even one when they
are equally near.  The result is `s` with the position `n`: the number of digits of `s`
followed by its zeros. -/
def shortestFrom (x n0 : Nat) : Nat → Nat → Nat × Nat
  | 0, _ => (x, n0)
  | fuel + 1, k =>
    if n0 ≤ k then (x, n0)
    else
      let p := 10 ^ (n0 - k)
      let lo := x / p
      let up := if lo + 1 = 10 ^ k then (10 ^ (k - 1), n0 + 1) else (lo + 1, n0)
      let v1 : Bool := roundNat (lo * p) = x
      let v2 : Bool := roundNat ((lo + 1) * p) = x
      if v1 && v2 then
        if x - lo * p < (lo + 1) * p - x ∨ (x - lo * p = (lo + 1) * p - x ∧ lo % 2 = 0)
        then (lo, n0) else up
      else if v1 then (lo, n0)
      else if v2 then up
      else shortestFrom x n0 fuel (k + 1)

/-- The digits `s` and the position `n` of `Number::toString` for a whole-number double. -/
def shortest (x : Nat) : Nat × Nat :=
  shortestFrom x (numDigits x) (numDigits x) 1

/-- `Number::toString` of a whole-number double `n`: below 2^53 every whole number is a
double, so the shortest digits are the decimal digits of `n`; from there on the digits of
`shortest`, followed by zeros up to 21 digits in all and written with an exponent
beyond. -/
def numberToString (n : Nat) : String :=
  if n < 2 ^ 53 then Nat.repr n
  else
    let s := (shortest n).1
    let e := (shortest n).2
    if e ≤ 21 then Nat.repr (s * 10 ^ (e - numDigits s))
    else
      match (Nat.repr s).data with
      | [] => ""
      | [d] => String.mk [d] ++ "e+" ++ Nat.repr (e - 1)
      | d :: ds => String.mk (d :: '.' :: ds) ++ "e+" ++ Nat.repr (e - 1)

/-- `parseInt(x)` for a double `x = num / den` that is zero or at least 10^-6, so that its
text has no negative exponent: the text of `x` is the whole part of `x` followed by its
decimals when `x` is below 2^53, the digits of `shortest` followed by zeros (which read
back as `x`) when `x` has at most 21 digits, and starts with one digit followed by `.` or
`e` beyond; `parseInt` reads the digits at its head. -/
def parseInt (x : Nat × Nat) : Nat :=
  let q := x.1 / x.2
  if q < 2 ^ 53 then q
  else if (shortest q).2 ≤ 21 then q
  else (shortest q).1 / 10 ^ (numDigits (shortest q).1 - 1)

/-- `transTime(value)` for a whole number of seconds `value` held in a double. -/
def transTime (value : Nat) : String :=
  let h := parseInt (toDouble value 3600)
  let value := value % 3600
  let m := parseInt (toDouble value 60)
  let s := parseInt (value % 60, 1)
  if h > 0 then
    formatTime (numberToString h ++ ":" ++ numberToString m ++ ":" ++ numberToString s)
  else formatTime (numberToString m ++ ":" ++ numberToString s)

/-- A component as the specification describes it: a one-digit number is padded on the
left with a single `0`, a longer one is left unchanged. -/
def twoDigits (n : Nat) : String :=
  if n < 10 then "0" ++ Nat.repr n else Nat.repr n

/-- The display the specification describes: minutes and seconds, preceded by the hours
when there are at least 3600 seconds, joined by `:`. -/
def transTimeSpec (v : Nat) : String :=
  if v < 3600 then
    twoDigits (v % 3600 / 60) ++ ":" ++ twoDigits (v % 60)
  else
    twoDigits (v / 3600) ++ ":" ++ twoDigits (v % 3600 / 60) ++ ":" ++ twoDigits (v % 60)

/-- The `while (attempts < 10)` loop of `audio.onended`, unrolled at most `fuel` times;
the result is the pair of `musicId` and `attempts` when the loop is left. -/
def randomLoop (oldId : Nat) (random : Nat → Nat) : Nat → Nat → Nat → Nat × Nat
  | 0, attempts, musicId => (musicId, attempts)
  | fuel + 1, attempts, musicId =>
    if attempts < 10 then
      let musicId := random attempts
      if musicId ≠ oldId then (musicId, attempts)
      else randomLoop oldId random fuel (attempts + 1) musicId
    else (musicId, attempts)

/-- The value of `musicId` after `audio.onended` has chosen the next track. -/
def onended (modeId musicId : Nat) (random : Nat → Nat) : Nat :=
  if modeId = 2 then (musicId + 1) % 14
  else if modeId = 3 then
    let oldId := musicId
    let r := randomLoop oldId random 10 0 musicId
    if r.2 ≥ 10 then (oldId + 1) % 14 else r.1
  else musicId

/-! ## Event sequences of one request

In each sequence the request's fetch is the only pending task at the start; an event
names a pending task by its position, new tasks being appended at the end. -/

/-- Four fetches of one request: the first three end in a plain error and are retried
when their timers expire, the fourth (retryCount 3) times out and the error event of
its aborted image follows. -/
def traceErrorsThenTimeout : List Event :=
  [Event.image 0 Outcome.error, Event.timer 0,
   Event.image 0 Outcome.error, Event.timer 0,
   Event.image 0 Outcome.error, Event.timer 0,
   Event.image 0 Outcome.timeout, Event.image 0 Outcome.error]

/-- The first two fetches of one request time out.  After the first timeout the error
event of the aborted image arms the 1000 ms retry timer, which expires before the
2000 ms fallback timer; after the second timeout the fallback timer expires first
(the compressed image is requested), then the 2000 ms retry timer (the fetch with
retryCount 2 starts).  At the end the compressed image is task 0, the fetch task 1. -/
def traceTwoTimeouts : List Event :=
  [Event.image 0 Outcome.timeout, Event.image 0 Outcome.error, Event.timer 1, Event.timer 0,
   Event.image 0 Outcome.timeout, Event.image 0 Outcome.error, Event.timer 0, Event.timer 0]

/-- After `traceTwoTimeouts` the fetch with retryCount 2 times out as well, the error
event of its image follows and the 2000 ms fallback timer expires: the placeholder is
requested (task 2), the compressed image (task 0) and the 3000 ms retry timer (task 1)
still pending. -/
def traceThreeTimeouts : List Event :=
  traceTwoTimeouts ++
    [Event.image 1 Outcome.timeout, Event.image 1 Outcome.error, Event.timer 1]

/-- The manager of `examplePage` when container 3, admitted through the queue, has
erred three times: its fetch with retryCount 3 is the only pending task. -/
def exampleLastFetch : ImageManager :=
  exampleAdmitted.run
    [Event.image 0 Outcome.error, Event.timer 0,
     Event.image 0 Outcome.error, Event.timer 0,
     Event.image 0 Outcome.error, Event.timer 0]

/-! ## What holds in every state reachable from a fresh page -/

namespace ImageManager

/-- The `dataset.src` of the containers, in order. -/
def sources (m : ImageManager) : List String :=
  m.containers.map Container.src

/-- Container `c` has a non-empty source in the list `S` of sources. -/
def HasSrc (S : List String) (c : Nat) : Prop :=
  ∃ s : String, S[c]? = some s ∧ s ≠ ""

/-- A pending task respects the retry bound 3 and belongs to a container with a source. -/
def TaskOk (S : List String) : Task → Prop
  | Task.startTimer _ _ => True
  | Task.attempt c r _ _ => r ≤ 3 ∧ HasSrc S c
  | Task.retryTimer c r _ => r < 3 ∧ HasSrc S c
  | Task.fallbackTimer c _ _ _ => HasSrc S c
  | Task.compressedLoad c _ _ => HasSrc S c
  | Task.originalLoad c _ => HasSrc S c
  | Task.placeholderLoad _ _ => True
  | Task.abortedError c r => r ≤ 3 ∧ HasSrc S c

/-- The retry button of container `c`, if there is one, carries the container's source
and index, and an error element is only shown together with its button, on a container
that has a source. -/
def ContOk (c : Nat) (k : Container) : Prop :=
  (∀ b : RetryButton, k.retryBtn = some b → b = { src := k.src, containerId := (c : Int) }) ∧
  (k.errorShown = true → k.retryBtn ≠ none ∧ k.src ≠ "")

/-- The invariant of the manager of a page whose containers have the sources `S`. -/
def Inv (S : List String) (m : ImageManager) : Prop :=
  m.maxRetries = 3 ∧ m.sources = S ∧ (∀ t ∈ m.tasks, TaskOk S t) ∧
  (∀ (c : Nat) (k : Container), m.containers[c]? = some k → ContOk c k)

/-- A page as `init` finds it: no container shows an error element or has a retry button. -/
def Fresh (cs : List Container) : Prop :=
  ∀ k ∈ cs, k.retryBtn = none ∧ k.errorShown = false

/-- Every container that shows the error element in `m2` showed it in `m1` already. -/
def FailedSub (m2 m1 : ImageManager) : Prop :=
  ∀ c : Nat, m2.isFailed c = true → m1.isFailed c = true

/-- Event `e` reports the failure of the last attempt of container `c` (its fetch has
retryCount at least `maxRetries` and errs or times out, or the error event of that
fetch's aborted image arrives), or the failure of the original image tried after the
compressed one. -/
def FailingEvent (m : ImageManager) (c : Nat) (e : Event) : Prop :=
  ∃ i : Nat,
    (∃ (r : Nat) (src : String) (ms : Nat),
      m.tasks[i]? = some (Task.attempt c r src ms) ∧ m.maxRetries ≤ r ∧
      (e = Event.image i Outcome.error ∨ e = Event.image i Outcome.timeout)) ∨
    (∃ r : Nat, m.tasks[i]? = some (Task.abortedError c r) ∧ m.maxRetries ≤ r ∧
      e = Event.image i Outcome.error) ∨
    (∃ src : String, m.tasks[i]? = some (Task.originalLoad c src) ∧
      e = Event.image i Outcome.error)

end ImageManager

/-- The example page from start-up to the failure of the compressed image of container 3:
the three start-up fetches load, container 3 is admitted through the queue, its first
fetch errs and is retried after 1000 ms, the retry (retryCount 1) times out and the error
event of its aborted image follows, the 2000 ms fallback timer expires (the compressed
image is requested), the 2000 ms retry timer expires (the fetch with retryCount 2
starts), and the compressed image fails, so that the original image is requested. -/
def traceFallbackFails : List Event :=
  [Event.timer 0, Event.timer 0, Event.timer 0,
   Event.image 0 Outcome.load, Event.image 0 Outcome.load, Event.image 0 Outcome.load,
   Event.intersect 3,
   Event.image 0 Outcome.error, Event.timer 0,
   Event.image 0 Outcome.timeout, Event.image 0 Outcome.error,
   Event.timer 0, Event.timer 0,
   Event.image 0 Outcome.error]

/-- The manager of `examplePage` after `traceFallbackFails`: the fetch with retryCount 2
of container 3 (task 0) and the original image tried after the compressed one (task 1)
are pending. -/
def exampleOriginalPending : ImageManager :=
  (ImageManager.init examplePage true).run traceFallbackFails

/-- The manager of `examplePage` after `traceFallbackFails` and the failure of the original
image: container 3 shows the error element while its fetch with retryCount 2 is pending. -/
def exampleFailed : ImageManager :=
  (ImageManager.init examplePage true).run
    (traceFallbackFails ++ [Event.image 1 Outcome.error])

/-- The example page from start-up on: the start-up timer of container 0 expires and starts
its fetch (task 2), the observer reports container 0 and a second fetch of it starts
(task 3), the start-up timers of containers 1 and 2 expire; the first fetch of container 0
errs and is retried three times, each retry erring as well, and after the error of the
fetch with retryCount 3 the second fetch of container 0 loads. -/
def traceFailedThenLoaded : List Event :=
  [Event.timer 0, Event.intersect 0, Event.timer 0, Event.timer 0,
   Event.image 0 Outcome.error, Event.timer 3,
   Event.image 3 Outcome.error, Event.timer 3,
   Event.image 3 Outcome.error, Event.timer 3,
   Event.image 3 Outcome.error,
   Event.image 0 Outcome.load]

/-- The manager of `examplePage` after `traceFailedThenLoaded`. -/
def exampleFailedLoaded : ImageManager :=
  (ImageManager.init examplePage true).run traceFailedThenLoaded

namespace ImageManager

/-- The retryCounts of the fetches of `loadImage` pending for container `c`. -/
def attemptRetries (m : ImageManager) (c : Nat) : List Nat :=
  m.tasks.filterMap (fun t =>
    match t with
    | Task.attempt c2 r _ _ => if c2 = c then some r else none
    | _ => none)

end ImageManager

/-! ## The admission loop -/

namespace ImageManager

theorem loadImageWith_queue_le (pq : ImageManager → ImageManager)
    (hpq : ∀ x, (pq x).loadingQueue.length ≤ x.loadingQueue.length) (m : ImageManager) (c r : Nat) :
    (loadImageWith pq m c r).loadingQueue.length ≤ m.loadingQueue.length := by
  unfold loadImageWith
  split
  · exact Nat.le_refl _
  · split
    · exact Nat.le_refl _
    · split
      · exact hpq _
      · exact Nat.le_refl _

theorem processQueueN_queue_le (n : Nat) (m : ImageManager) :
    (processQueueN n m).loadingQueue.length ≤ m.loadingQueue.length := by
  induction n generalizing m with
  | zero => exact Nat.le_refl _
  | succ n ih =>
    unfold processQueueN
    split
    · exact Nat.le_refl _
    · rename_i c rest hq
      split
      · refine Nat.le_trans (ih _) (Nat.le_trans (loadImageWith_queue_le _ ih _ _ _) ?_)
        simp [hq]
      · exact Nat.le_refl _

theorem processQueueN_fuel (n k : Nat) (m : ImageManager)
    (hn : m.loadingQueue.length ≤ n) (hk : m.loadingQueue.length ≤ k) :
    processQueueN n m = processQueueN k m := by
  induction n generalizing k m with
  | zero =>
    have hq : m.loadingQueue = [] := List.length_eq_zero.mp (Nat.le_zero.mp hn)
    cases k with
    | zero => rfl
    | succ k => simp [processQueueN, hq]
  | succ n ih =>
    cases k with
    | zero =>
      have hq : m.loadingQueue = [] := List.length_eq_zero.mp (Nat.le_zero.mp hk)
      simp [processQueueN, hq]
    | succ k =>
      unfold processQueueN
      split
      · rfl
      · rename_i c rest hq
        rw [hq] at hn hk
        simp only [List.length_cons, Nat.add_le_add_iff_right] at hn hk
        split
        · have h1 : loadImageWith (processQueueN n)
              { m with loadingQueue := rest, currentLoadings := m.currentLoadings + 1 } c 0
            = loadImageWith (processQueueN k)
              { m with loadingQueue := rest, currentLoadings := m.currentLoadings + 1 } c 0 := by
            unfold loadImageWith
            split
            · rfl
            · split
              · rfl
              · split
                · exact ih _ _ hn hk
                · rfl
          rw [h1]
          have h2 := loadImageWith_queue_le (processQueueN k) (processQueueN_queue_le k)
            { m with loadingQueue := rest, currentLoadings := m.currentLoadings + 1 } c 0
          exact ih _ _ (Nat.le_trans h2 hn) (Nat.le_trans h2 hk)
        · rfl

/-- The loop of `processQueue` does nothing on an empty queue. -/
theorem processQueue_nil (m : ImageManager) (hq : m.loadingQueue = []) : processQueue m = m := by
  simp [processQueue, hq, processQueueN]

/-- The loop of `processQueue` does nothing when no slot is free. -/
theorem processQueue_full (m : ImageManager) (h : ¬ m.currentLoadings < m.concurrentLimit) :
    processQueue m = m := by
  unfold processQueue
  cases hq : m.loadingQueue with
  | nil => rfl
  | cons c rest => simp [processQueueN, hq, h]

/-- One round of the loop of `processQueue`, as in the source: shift, count, `loadImage`, loop. -/
theorem processQueue_cons (m : ImageManager) (c : Nat) (rest : List Nat)
    (hq : m.loadingQueue = c :: rest) (h : m.currentLoadings < m.concurrentLimit) :
    processQueue m = processQueue
      (loadImage { m with loadingQueue := rest, currentLoadings := m.currentLoadings + 1 } c 0) := by
  have hfuel : ∀ x : ImageManager, x.loadingQueue.length ≤ rest.length →
      processQueueN rest.length x = processQueue x := fun x hx =>
    processQueueN_fuel _ _ x hx (Nat.le_refl _)
  have h1 : loadImageWith (processQueueN rest.length)
        { m with loadingQueue := rest, currentLoadings := m.currentLoadings + 1 } c 0
      = loadImage { m with loadingQueue := rest, currentLoadings := m.currentLoadings + 1 } c 0 := by
    unfold loadImage loadImageWith
    split
    · rfl
    · split
      · rfl
      · split
        · exact hfuel _ (Nat.le_refl _)
        · rfl
  have h2 := loadImageWith_queue_le (processQueueN rest.length) (processQueueN_queue_le _)
    { m with loadingQueue := rest, currentLoadings := m.currentLoadings + 1 } c 0
  conv => lhs; unfold processQueue
  rw [hq]
  simp only [List.length_cons, processQueueN, hq, h, if_true]
  rw [h1] at h2 ⊢
  exact hfuel _ h2

/-! ## FIFO admission -/

theorem attemptOf_congr (m m2 : ImageManager) (c : Nat) (k : Container)
    (hk : m.containers[c]? = some k) (ht : m2.timeout = m.timeout)
    (hc : m2.containers = m.containers.set c (showLoadingState k)) (x : Nat) :
    attemptOf m2 x = attemptOf m x := by
  unfold attemptOf
  rw [hc, ht]
  by_cases hx : c = x
  · subst hx
    have hlt : c < m.containers.length := by
      rcases List.getElem?_eq_some_iff.mp hk with ⟨h, _⟩
      exact h
    simp [hk, hlt, showLoadingState]
  · simp [List.getElem?_set_ne hx]

theorem loadImage_none (m : ImageManager) (c r : Nat) (hk : m.containers[c]? = none) :
    loadImage m c r = m := by
  simp [loadImage, loadImageWith, hk]

theorem loadImage_nosrc (m : ImageManager) (c r : Nat) (k : Container)
    (hk : m.containers[c]? = some k) (hs : k.src = "") : loadImage m c r = m := by
  simp [loadImage, loadImageWith, hk, hs]

theorem loadImage_fetch (m : ImageManager) (c r : Nat) (k : Container)
    (hk : m.containers[c]? = some k) (hs : k.src ≠ "") (hl : k.loaded ≠ some Marker.success) :
    loadImage m c r = { m with
      containers := m.containers.set c (showLoadingState k)
      tasks := m.tasks ++ [Task.attempt c r k.src m.timeout] } := by
  simp [loadImage, loadImageWith, hk, hs, hl]

theorem loadImage_start (m : ImageManager) (c : Nat)
    (h : ∀ k : Container, m.containers[c]? = some k → k.loaded ≠ some Marker.success) :
    (loadImage m c 0).loadingQueue = m.loadingQueue ∧
    (loadImage m c 0).currentLoadings = m.currentLoadings ∧
    (loadImage m c 0).concurrentLimit = m.concurrentLimit ∧
    (loadImage m c 0).tasks = m.tasks ++ (attemptOf m c).toList ∧
    (∀ x : Nat, attemptOf (loadImage m c 0) x = attemptOf m x) ∧
    (∀ x : Nat, (∀ k : Container, m.containers[x]? = some k → k.loaded ≠ some Marker.success) →
      ∀ k : Container, (loadImage m c 0).containers[x]? = some k →
        k.loaded ≠ some Marker.success) := by
  cases hk : m.containers[c]? with
  | none =>
    rw [loadImage_none m c 0 hk]
    simp [attemptOf, hk]
  | some k =>
    by_cases hs : k.src = ""
    · rw [loadImage_nosrc m c 0 k hk hs]
      simp [attemptOf, hk, hs]
    · have hl : k.loaded ≠ some Marker.success := h k hk
      rw [loadImage_fetch m c 0 k hk hs hl]
      refine ⟨rfl, rfl, rfl, ?_, ?_, ?_⟩
      · simp [attemptOf, hk, hs]
      · intro x
        refine attemptOf_congr m _ c k hk ?_ ?_ x <;> rfl
      · intro x hx k2 hk2
        by_cases hcx : c = x
        · subst hcx
          have hlt : c < m.containers.length := by
            rcases List.getElem?_eq_some_iff.mp hk with ⟨h, _⟩
            exact h
          simp [hlt] at hk2
          subst hk2
          simp [showLoadingState]
        · simp [List.getElem?_set_ne hcx] at hk2
          exact hx k2 hk2

theorem processQueue_fifo_aux (q : List Nat) : ∀ m : ImageManager, m.loadingQueue = q →
    (∀ c ∈ m.loadingQueue, ∀ k : Container, m.containers[c]? = some k →
      k.loaded ≠ some Marker.success) →
    (processQueue m).loadingQueue = m.loadingQueue.drop (admitCount m) ∧
    (processQueue m).tasks = m.tasks ++ (m.loadingQueue.take (admitCount m)).filterMap (attemptOf m) ∧
    (processQueue m).currentLoadings = m.currentLoadings + (admitCount m : Int) := by
  induction q with
  | nil =>
    intro m hq _
    rw [processQueue_nil m hq]
    simp [admitCount, hq]
  | cons c rest ih =>
    intro m hq h
    by_cases hlt : m.currentLoadings < m.concurrentLimit
    · obtain ⟨h1, h2, h3, h4, h5, h6⟩ := loadImage_start
        { m with loadingQueue := rest, currentLoadings := m.currentLoadings + 1 } c
        (h c (by simp [hq]))
      have hrest : ∀ x ∈ (loadImage
          { m with loadingQueue := rest, currentLoadings := m.currentLoadings + 1 } c 0).loadingQueue,
          ∀ k : Container, (loadImage
            { m with loadingQueue := rest, currentLoadings := m.currentLoadings + 1 }
            c 0).containers[x]? = some k → k.loaded ≠ some Marker.success := by
        intro x hx
        rw [h1] at hx
        exact h6 x (h x (by simp [hq]; exact Or.inr hx))
      obtain ⟨i1, i2, i3⟩ := ih _ h1 hrest
      have hn : admitCount m = admitCount (loadImage
          { m with loadingQueue := rest, currentLoadings := m.currentLoadings + 1 } c 0) + 1 := by
        simp only [admitCount, h1, h2, h3, hq, List.length_cons]
        omega
      rw [processQueue_cons m c rest hq hlt, i1, i2, i3, hn, h1, h2, h4, hq]
      refine ⟨by simp, ?_, by push_cast; ring⟩
      simp only [List.take_succ_cons, List.filterMap_cons, List.append_assoc]
      congr 1
      have hcongr : List.filterMap (attemptOf (loadImage
          { m with loadingQueue := rest, currentLoadings := m.currentLoadings + 1 } c 0))
          = List.filterMap (attemptOf m) := by
        rw [funext h5]
        rfl
      rw [hcongr]
      have ha : attemptOf { m with loadingQueue := rest, currentLoadings := m.currentLoadings + 1 } c
          = attemptOf m c := rfl
      rw [ha]
      cases attemptOf m c <;> simp
    · rw [processQueue_full m hlt]
      have hn : admitCount m = 0 := by
        simp only [admitCount]
        omega
      simp [hn]

/-! ## A request whose fetches all err (C6) -/

theorem getElem?_set_same (cs : List Container) (c : Nat) (k k2 : Container)
    (hk : cs[c]? = some k) : (cs.set c k2)[c]? = some k2 := by
  have hlt : c < cs.length := (List.getElem?_eq_some_iff.mp hk).1
  simp [hlt]

/-- C6 (amended).  A request all of whose fetches end in a plain error: the fourth fetch
is the one with retryCount 3, its error puts the request in Failed with nothing pending,
and over the four errors `stats.failed` and `stats.retries` have each grown by 4 (one per
failed fetch), `stats.loaded` is unchanged and the slot is given back once. -/
theorem four_errors_failed (m : ImageManager) (c ms : Nat) (src : String)
    (k : Container) (ht : m.tasks = [Task.attempt c 0 src ms]) (hq : m.loadingQueue = [])
    (hk : m.containers[c]? = some k) (hs : k.src ≠ "") (hl : k.loaded ≠ some Marker.success)
    (hr : m.maxRetries = 3) :
    (lifecycle m [Outcome.error, Outcome.error, Outcome.error]).tasks
      = [Task.attempt c 3 k.src m.timeout] ∧
    (lifecycle m [Outcome.error, Outcome.error, Outcome.error]).isFailed c = false ∧
    (lifecycle m [Outcome.error, Outcome.error, Outcome.error, Outcome.error]).isFailed c
      = true ∧
    (lifecycle m [Outcome.error, Outcome.error, Outcome.error, Outcome.error]).tasks = [] ∧
    (lifecycle m [Outcome.error, Outcome.error, Outcome.error, Outcome.error]).stats
      = { m.stats with failed := m.stats.failed + 4, retries := m.stats.retries + 4 } ∧
    (lifecycle m [Outcome.error, Outcome.error, Outcome.error, Outcome.error]).currentLoadings
      = m.currentLoadings - 1 := by
  have hlt : c < m.containers.length := (List.getElem?_eq_some_iff.mp hk).1
  refine ⟨?_, ?_, ?_, ?_, ?_, ?_⟩ <;>
  simp [lifecycle, deliver, step, resolve, expire, handleImageError, showErrorState,
      updateContainer, loadImage, loadImageWith, showLoadingState, processQueue_nil, isFailed,
      ht, hk, hs, hl, hlt, hq, hr]

/-- Witness of `four_errors_failed`: container 3 of the example page. -/
theorem four_errors_failed_witness :
    exampleAdmitted.tasks = [Task.attempt 3 0 "img/camera/4.jpg" 10000] ∧
    ((lifecycle exampleAdmitted [Outcome.error, Outcome.error, Outcome.error]).tasks
        = [Task.attempt 3 3 "img/camera/4.jpg" exampleAdmitted.timeout] ∧
      (lifecycle exampleAdmitted [Outcome.error, Outcome.error, Outcome.error]).isFailed 3
        = false ∧
      (lifecycle exampleAdmitted [Outcome.error, Outcome.error, Outcome.error,
        Outcome.error]).isFailed 3 = true ∧
      (lifecycle exampleAdmitted [Outcome.error, Outcome.error, Outcome.error,
        Outcome.error]).tasks = [] ∧
      (lifecycle exampleAdmitted [Outcome.error, Outcome.error, Outcome.error,
        Outcome.error]).stats
        = { exampleAdmitted.stats with
            failed := exampleAdmitted.stats.failed + 4
            retries := exampleAdmitted.stats.retries + 4 } ∧
      (lifecycle exampleAdmitted [Outcome.error, Outcome.error, Outcome.error,
        Outcome.error]).currentLoadings = exampleAdmitted.currentLoadings - 1) :=
  ⟨by decide, four_errors_failed exampleAdmitted 3 10000 "img/camera/4.jpg"
    { src := "img/camera/4.jpg", loading := true } (by decide) (by decide) (by decide)
    (by decide) (by decide) (by decide)⟩

/-- C6 (counterexample).  On the example page, four plain errors of container 3 do not
leave `stats.failed` grown by 1 and `stats.retries` grown by 3: both have grown by 4. -/
theorem four_errors_counters_counterexample :
    ¬ ((lifecycle exampleAdmitted [Outcome.error, Outcome.error, Outcome.error,
          Outcome.error]).stats.failed = exampleAdmitted.stats.failed + 1 ∧
       (lifecycle exampleAdmitted [Outcome.error, Outcome.error, Outcome.error,
          Outcome.error]).stats.retries = exampleAdmitted.stats.retries + 3) := by
  decide

/-! ## Concurrency limit, offline and FIFO admission (C2, C8, C9) -/

/-- C2 (code defect).  On the example page the three start-up fetches are started by
`loadCriticalImages` without being counted, so when containers 3, 4 and 5 scroll into
view the queue admits all three: six containers have a fetch in flight while
`concurrentLimit` is 3 and `currentLoadings` says 3. -/
theorem startup_exceeds_limit :
    exampleStartup.loadingContainers = [0, 1, 2, 3, 4, 5] ∧
    exampleStartup.loadingContainers.length = 6 ∧
    exampleStartup.concurrentLimit = 3 ∧
    exampleStartup.currentLoadings = 3 ∧
    ¬ ((exampleStartup.loadingContainers.length : Int) ≤ exampleStartup.concurrentLimit) := by
  decide

/-- C8 (code defect).  On the example page, offline, container 3 waits in the queue and
nothing is admitted; then the start-up fetch of container 0 loads, `currentLoadings`
(never incremented for it) drops to -1, which is below the offline limit 0, and
`processQueue` admits container 3: a new fetch starts while offline. -/
theorem offline_admission :
    exampleOffline.concurrentLimit = 0 ∧
    exampleOffline.loadingQueue = [3] ∧
    exampleOffline.currentLoadings = 0 ∧
    Task.attempt 3 0 "img/camera/4.jpg" 10000 ∉ exampleOffline.tasks ∧
    (exampleOffline.step (Event.image 0 Outcome.load)).concurrentLimit = 0 ∧
    (exampleOffline.step (Event.image 0 Outcome.load)).loadingQueue = [] ∧
    Task.attempt 3 0 "img/camera/4.jpg" 10000 ∈
      (exampleOffline.step (Event.image 0 Outcome.load)).tasks := by
  decide

/-- C9 (amended).  When no queued container carries the loaded marker `success`,
`processQueue` starts, in queue order and with retryCount 0, the fetches of exactly the
first `min(|q|, max(L - a, 0))` queued containers, leaves the rest of the queue in its
order, counts every one of them in `currentLoadings`, and admits each only while the
count is below the limit; the `online` listener does the same with the limit reset to 3. -/
theorem processQueue_admits_fifo (m : ImageManager)
    (h : ∀ c ∈ m.loadingQueue, ∀ k : Container, m.containers[c]? = some k →
      k.loaded ≠ some Marker.success) :
    (processQueue m).loadingQueue = m.loadingQueue.drop (admitCount m) ∧
    (processQueue m).tasks
      = m.tasks ++ (m.loadingQueue.take (admitCount m)).filterMap (attemptOf m) ∧
    (processQueue m).currentLoadings = m.currentLoadings + (admitCount m : Int) ∧
    (∀ i : Nat, i < admitCount m → m.currentLoadings + (i : Int) < m.concurrentLimit) ∧
    (online m).loadingQueue
      = m.loadingQueue.drop (admitCount { m with concurrentLimit := 3 }) ∧
    (online m).tasks
      = m.tasks ++ (m.loadingQueue.take (admitCount { m with concurrentLimit := 3 })).filterMap
          (attemptOf m) := by
  obtain ⟨h1, h2, h3⟩ := processQueue_fifo_aux m.loadingQueue m rfl h
  obtain ⟨o1, o2, _⟩ := processQueue_fifo_aux m.loadingQueue { m with concurrentLimit := 3 } rfl h
  refine ⟨h1, h2, h3, ?_, o1, o2⟩
  intro i hi
  simp only [admitCount] at hi
  omega

/-- Witness of `processQueue_admits_fifo`: the backlog `[5, 6]` of the example page. -/
theorem processQueue_admits_fifo_witness :
    exampleBacklogFresh.loadingQueue = [5, 6] ∧
    ((processQueue exampleBacklogFresh).loadingQueue
        = exampleBacklogFresh.loadingQueue.drop (admitCount exampleBacklogFresh) ∧
      (processQueue exampleBacklogFresh).tasks
        = exampleBacklogFresh.tasks ++
          (exampleBacklogFresh.loadingQueue.take (admitCount exampleBacklogFresh)).filterMap
            (attemptOf exampleBacklogFresh) ∧
      (processQueue exampleBacklogFresh).currentLoadings
        = exampleBacklogFresh.currentLoadings + (admitCount exampleBacklogFresh : Int) ∧
      (∀ i : Nat, i < admitCount exampleBacklogFresh →
        exampleBacklogFresh.currentLoadings + (i : Int) < exampleBacklogFresh.concurrentLimit) ∧
      (online exampleBacklogFresh).loadingQueue
        = exampleBacklogFresh.loadingQueue.drop
            (admitCount { exampleBacklogFresh with concurrentLimit := 3 }) ∧
      (online exampleBacklogFresh).tasks
        = exampleBacklogFresh.tasks ++
          (exampleBacklogFresh.loadingQueue.take
            (admitCount { exampleBacklogFresh with concurrentLimit := 3 })).filterMap
            (attemptOf exampleBacklogFresh)) :=
  ⟨by decide, processQueue_admits_fifo exampleBacklogFresh (by
    intro c hc k hk
    have hq : exampleBacklogFresh.loadingQueue = [5, 6] := by decide
    rw [hq] at hc
    simp only [List.mem_cons, List.mem_singleton, List.not_mem_nil, or_false] at hc
    rcases hc with rfl | rfl
    · have h5 : exampleBacklogFresh.containers[5]? = some { src := "img/camera/6.jpg" } := by
        decide
      rw [h5] at hk
      cases hk
      decide
    · have h6 : exampleBacklogFresh.containers[6]? = some { src := "img/camera/7.jpg" } := by
        decide
      rw [h6] at hk
      cases hk
      decide)⟩

/-- C9 (counterexample).  On the example page the backlog is `[0, 5, 6]`, one fetch is
counted and the `online` listener has reset the limit to 3, so `min(|q|, max(L - a, 0))`
is 2; container 0 is already loaded, `loadImage` gives its slot back at once, and
`processQueue` hands all three containers on: the queue is left empty, not `[6]`. -/
theorem processQueue_prefix_counterexample :
    exampleBacklog.loadingQueue = [0, 5, 6] ∧
    exampleBacklog.currentLoadings = 1 ∧
    admitCount { exampleBacklog with concurrentLimit := 3 } = 2 ∧
    (processQueue { exampleBacklog with concurrentLimit := 3 }).loadingQueue = [] ∧
    Task.attempt 6 0 "img/camera/7.jpg" 10000 ∈
      (processQueue { exampleBacklog with concurrentLimit := 3 }).tasks ∧
    ¬ ((processQueue { exampleBacklog with concurrentLimit := 3 }).loadingQueue
        = exampleBacklog.loadingQueue.drop
            (admitCount { exampleBacklog with concurrentLimit := 3 })) := by
  decide

end ImageManager

/-! ## Audio player: splitting a string, decimal digits -/

theorem splitChars_single (sep : Char) (x : List Char) (hx : sep ∉ x) :
    splitChars sep x = [x] := by
  induction x with
  | nil => rfl
  | cons c cs ih =>
    have hc : c ≠ sep := fun h => hx (by simp [h])
    have hcs : sep ∉ cs := fun h => hx (by simp [h])
    simp [splitChars, hc, ih hcs]

theorem splitChars_append (sep : Char) (x y : List Char) (hx : sep ∉ x) :
    splitChars sep (x ++ sep :: y) = x :: splitChars sep y := by
  induction x with
  | nil => simp [splitChars]
  | cons c cs ih =>
    have hc : c ≠ sep := fun h => hx (by simp [h])
    have hcs : sep ∉ cs := fun h => hx (by simp [h])
    simp [splitChars, hc, ih hcs]

theorem digitChar_ne_colon : ∀ d : Nat, d < 10 → Nat.digitChar d ≠ ':' := by
  decide

theorem toDigitsCore_no_colon (f : Nat) : ∀ (n : Nat) (ds : List Char),
    ':' ∉ ds → ':' ∉ Nat.toDigitsCore 10 f n ds := by
  induction f with
  | zero => intro n ds h; simpa [Nat.toDigitsCore] using h
  | succ f ih =>
    intro n ds h
    have hd : ':' ∉ Nat.digitChar (n % 10) :: ds := by
      intro hmem
      rcases List.mem_cons.mp hmem with h1 | h1
      · exact digitChar_ne_colon _ (Nat.mod_lt _ (by decide)) h1.symm
      · exact h h1
    simp only [Nat.toDigitsCore]
    split
    · exact hd
    · exact ih _ _ hd

theorem toDigitsCore_length_le (f : Nat) : ∀ (n : Nat) (ds : List Char),
    ds.length ≤ (Nat.toDigitsCore 10 f n ds).length := by
  induction f with
  | zero => intro n ds; simp [Nat.toDigitsCore]
  | succ f ih =>
    intro n ds
    simp only [Nat.toDigitsCore]
    split
    · simp
    · exact Nat.le_trans (by simp) (ih _ _)

theorem repr_no_colon (n : Nat) : ':' ∉ (Nat.repr n).data := by
  simp only [Nat.repr, Nat.toDigits, List.asString]
  exact toDigitsCore_no_colon _ _ _ (by simp)

theorem repr_length_pos (n : Nat) : 1 ≤ (Nat.repr n).length := by
  simp only [Nat.repr, Nat.toDigits, List.asString, String.length, Nat.toDigitsCore]
  split
  · simp
  · exact Nat.le_trans (by simp) (toDigitsCore_length_le _ _ _)

/-! ## Audio player: the next track in random mode (C13) -/

theorem randomLoop_spec (oldId : Nat) (random : Nat → Nat) (fuel : Nat) :
    ∀ attempts musicId : Nat, attempts ≤ 10 → 10 ≤ attempts + fuel →
      (randomLoop oldId random fuel attempts musicId).2 ≤ 10 ∧
      ((randomLoop oldId random fuel attempts musicId).2 < 10 →
        (randomLoop oldId random fuel attempts musicId).1 ≠ oldId ∧
        ∃ i : Nat, i < 10 ∧ (randomLoop oldId random fuel attempts musicId).1 = random i) := by
  induction fuel with
  | zero =>
    intro attempts musicId h1 h2
    simp only [randomLoop]
    exact ⟨h1, fun h => by omega⟩
  | succ fuel ih =>
    intro attempts musicId h1 h2
    by_cases ha : attempts < 10
    · by_cases hd : random attempts ≠ oldId
      · have e : randomLoop oldId random (fuel + 1) attempts musicId
            = (random attempts, attempts) := by
          simp [randomLoop, ha, hd]
        rw [e]
        exact ⟨h1, fun _ => ⟨hd, attempts, ha, rfl⟩⟩
      · have e : randomLoop oldId random (fuel + 1) attempts musicId
            = randomLoop oldId random fuel (attempts + 1) (random attempts) := by
          simp only [randomLoop, ha, if_true, hd, if_false]
        rw [e]
        exact ih _ _ ha (by omega)
    · have e : randomLoop oldId random (fuel + 1) attempts musicId = (musicId, attempts) := by
        simp [randomLoop, ha]
      rw [e]
      exact ⟨h1, fun h => absurd h ha⟩

theorem randomLoop_fuel (oldId : Nat) (random : Nat → Nat) (f1 : Nat) :
    ∀ f2 attempts musicId : Nat, 10 ≤ attempts + f1 → 10 ≤ attempts + f2 →
      randomLoop oldId random f1 attempts musicId
        = randomLoop oldId random f2 attempts musicId := by
  induction f1 with
  | zero =>
    intro f2 attempts musicId h1 h2
    have ha : ¬ attempts < 10 := by omega
    cases f2 with
    | zero => rfl
    | succ f2 => simp [randomLoop, ha]
  | succ f1 ih =>
    intro f2 attempts musicId h1 h2
    by_cases ha : attempts < 10
    · cases f2 with
      | zero => omega
      | succ f2 =>
        simp only [randomLoop, ha, if_true]
        split
        · rfl
        · exact ih _ _ _ (by omega) (by omega)
    · cases f2 with
      | zero => simp [randomLoop, ha]
      | succ f2 => simp [randomLoop, ha]

theorem randomLoop_congr (oldId : Nat) (random random2 : Nat → Nat)
    (h : ∀ i : Nat, i < 10 → random2 i = random i) (fuel : Nat) :
    ∀ attempts musicId : Nat,
      randomLoop oldId random2 fuel attempts musicId
        = randomLoop oldId random fuel attempts musicId := by
  induction fuel with
  | zero => intro attempts musicId; rfl
  | succ fuel ih =>
    intro attempts musicId
    simp only [randomLoop]
    by_cases ha : attempts < 10
    · simp only [ha, if_true, h attempts ha, ih]
    · simp only [ha, if_false]

/-- C13.  In random mode (`modeId` 3), for every current track `musicId` (in 0..13 or
not) and every sequence of draws with values in 0..13, the next `musicId` is in 0..13 and differs
from the track that just ended; the loop is left with `attempts` at most 10, ten rounds
are all it can run (more fuel changes nothing), and only the first ten draws matter. -/
theorem onended_random (musicId : Nat) (random : Nat → Nat)
    (hr : ∀ i : Nat, random i < 14) :
    onended 3 musicId random < 14 ∧
    onended 3 musicId random ≠ musicId ∧
    (randomLoop musicId random 10 0 musicId).2 ≤ 10 ∧
    (∀ n : Nat, 10 ≤ n →
      randomLoop musicId random n 0 musicId = randomLoop musicId random 10 0 musicId) ∧
    (∀ random2 : Nat → Nat, (∀ i : Nat, i < 10 → random2 i = random i) →
      onended 3 musicId random2 = onended 3 musicId random) := by
  obtain ⟨h1, h2⟩ := randomLoop_spec musicId random 10 0 musicId (by omega) (by omega)
  have hval : onended 3 musicId random
      = if (randomLoop musicId random 10 0 musicId).2 ≥ 10 then (musicId + 1) % 14
        else (randomLoop musicId random 10 0 musicId).1 := by
    simp [onended]
  refine ⟨?_, ?_, h1, ?_, ?_⟩
  · rw [hval]
    split
    · exact Nat.mod_lt _ (by decide)
    · rename_i hlt
      obtain ⟨_, i, _, hi⟩ := h2 (by omega)
      rw [hi]
      exact hr i
  · rw [hval]
    split
    · omega
    · rename_i hlt
      exact (h2 (by omega)).1
  · intro n hn
    exact randomLoop_fuel musicId random n 10 0 musicId (by omega) (by omega)
  · intro random2 h
    simp only [onended, randomLoop_congr musicId random random2 h]

/-- Witness of `onended_random`: track 5 ends and every draw gives 5 again. -/
theorem onended_random_witness :
    (∀ i : Nat, (fun _ : Nat => 5) i < 14) ∧
    (onended 3 5 (fun _ => 5) < 14 ∧
      onended 3 5 (fun _ => 5) ≠ 5 ∧
      (randomLoop 5 (fun _ => 5) 10 0 5).2 ≤ 10 ∧
      (∀ n : Nat, 10 ≤ n →
        randomLoop 5 (fun _ => 5) n 0 5 = randomLoop 5 (fun _ => 5) 10 0 5) ∧
      (∀ random2 : Nat → Nat, (∀ i : Nat, i < 10 → random2 i = (fun _ => 5) i) →
        onended 3 5 random2 = onended 3 5 (fun _ => 5))) :=
  ⟨fun _ => by norm_num, onended_random 5 (fun _ => 5) (fun _ => by norm_num)⟩

namespace ImageManager

/-! ## Manual retry, duplicate fetches and the active count (C12, C15) -/

theorem retryClick_fetch (m : ImageManager) (c : Nat) (k : Container)
    (hk : m.containers[c]? = some k) (he : k.errorShown = true)
    (hb : k.retryBtn = some { src := k.src, containerId := (c : Int) })
    (hs : k.src ≠ "") (hl : k.loaded ≠ some Marker.success) :
    m.step (Event.retryClick c) = { m with
      containers := m.containers.set c (showLoadingState k)
      tasks := m.tasks ++ [Task.attempt c 0 k.src m.timeout] } := by
  have hlt : c < m.containers.length := (List.getElem?_eq_some_iff.mp hk).1
  simp [step, hk, he, retryImage, hb, updateContainer, loadImage, loadImageWith, hlt, hs, hl,
    showLoadingState]

/-- C12 (code defect).  On the example page the start-up timer of container 0 expires and
starts its fetch; the observer then reports container 0, which is in the first viewport,
and `addToQueue` starts a second fetch of it while the first is pending.  The scroll
fallback, given the same container as near, skips it because `dataset.loading` is set. -/
theorem duplicate_fetch :
    ((init examplePage true).run [Event.timer 0]).fetchCount 0 = 1 ∧
    exampleDuplicate.fetchCount 0 = 2 ∧
    exampleDuplicate.tasks
      = [Task.startTimer 1 300, Task.startTimer 2 600,
         Task.attempt 0 0 "img/camera/1.jpg" 10000, Task.attempt 0 0 "img/camera/1.jpg" 10000] ∧
    (((init examplePage false).run [Event.timer 0]).step (Event.scroll [0])).fetchCount 0 = 1 := by
  decide

/-- C15 (code defect).  On the example page the three start-up fetches are started
without `currentLoadings` being incremented (it is 0 while they are pending); when the
fetch of container 0 loads, `handleImageLoad` decrements it to -1. -/
theorem currentLoadings_negative :
    ((init examplePage true).run [Event.timer 0, Event.timer 0, Event.timer 0]).currentLoadings
      = 0 ∧
    exampleFirstLoaded.currentLoadings = -1 ∧
    exampleFirstLoaded.currentLoadings < 0 := by
  decide

end ImageManager

namespace ImageManager

/-! ## Timeouts: the aborted image's error event (C1, C4, C5, C7, C10) -/

/-- C7 (code defect).  A timeout on a fetch with retryCount at or above `maxRetries`:
`handleImageTimeout` shows the error element and gives the slot back without touching
the counters; the error event of the image it aborted then runs `handleImageError` with
the same retryCount, which increments `failed` and `retries` and gives the slot back a
second time: `currentLoadings` has dropped by 2 for the one request. -/
theorem final_timeout_releases_twice (m : ImageManager) (c r ms : Nat) (src : String)
    (k : Container) (ht : m.tasks = [Task.attempt c r src ms]) (hq : m.loadingQueue = [])
    (hk : m.containers[c]? = some k) (hr : m.maxRetries ≤ r) :
    (m.step (Event.image 0 Outcome.timeout)).tasks = [Task.abortedError c r] ∧
    (m.step (Event.image 0 Outcome.timeout)).isFailed c = true ∧
    (m.step (Event.image 0 Outcome.timeout)).stats = m.stats ∧
    (m.step (Event.image 0 Outcome.timeout)).currentLoadings = m.currentLoadings - 1 ∧
    (m.run [Event.image 0 Outcome.timeout, Event.image 0 Outcome.error]).tasks = [] ∧
    (m.run [Event.image 0 Outcome.timeout, Event.image 0 Outcome.error]).isFailed c = true ∧
    (m.run [Event.image 0 Outcome.timeout, Event.image 0 Outcome.error]).stats
      = { m.stats with failed := m.stats.failed + 1, retries := m.stats.retries + 1 } ∧
    (m.run [Event.image 0 Outcome.timeout, Event.image 0 Outcome.error]).currentLoadings
      = m.currentLoadings - 2 := by
  have hlt : c < m.containers.length := (List.getElem?_eq_some_iff.mp hk).1
  have hr2 : ¬ r < m.maxRetries := Nat.not_lt.mpr hr
  refine ⟨?_, ?_, ?_, ?_, ?_, ?_, ?_, ?_⟩
  all_goals simp [run, step, resolve, handleImageTimeout, handleImageError, showErrorState,
    updateContainer, processQueue_nil, isFailed, ht, hk, hlt, hq, hr2]
  omega

/-- Witness of `final_timeout_releases_twice`: container 3 of the example page after
three errors. -/
theorem final_timeout_releases_twice_witness :
    exampleLastFetch.tasks = [Task.attempt 3 3 "img/camera/4.jpg" 10000] ∧
    ((exampleLastFetch.step (Event.image 0 Outcome.timeout)).tasks
        = [Task.abortedError 3 3] ∧
      (exampleLastFetch.step (Event.image 0 Outcome.timeout)).isFailed 3 = true ∧
      (exampleLastFetch.step (Event.image 0 Outcome.timeout)).stats = exampleLastFetch.stats ∧
      (exampleLastFetch.step (Event.image 0 Outcome.timeout)).currentLoadings
        = exampleLastFetch.currentLoadings - 1 ∧
      (exampleLastFetch.run
        [Event.image 0 Outcome.timeout, Event.image 0 Outcome.error]).tasks = [] ∧
      (exampleLastFetch.run
        [Event.image 0 Outcome.timeout, Event.image 0 Outcome.error]).isFailed 3 = true ∧
      (exampleLastFetch.run
        [Event.image 0 Outcome.timeout, Event.image 0 Outcome.error]).stats
        = { exampleLastFetch.stats with
            failed := exampleLastFetch.stats.failed + 1
            retries := exampleLastFetch.stats.retries + 1 } ∧
      (exampleLastFetch.run
        [Event.image 0 Outcome.timeout, Event.image 0 Outcome.error]).currentLoadings
        = exampleLastFetch.currentLoadings - 2) :=
  ⟨by decide, final_timeout_releases_twice exampleLastFetch 3 3 10000 "img/camera/4.jpg"
    { src := "img/camera/4.jpg", loading := true } (by decide) (by decide) (by decide)
    (by decide)⟩

/-- C1 (code defect).  One request, counted once by `processQueue`, gives its slot back
twice.  When three fetches err and the fourth (retryCount 3) times out, the request is
Failed with nothing pending and `currentLoadings` is 2 lower than while it was loading.
When the first two fetches time out and both the compressed image and the fetch with
retryCount 2 then load, `handleImageLoad` runs twice: `currentLoadings` is again 2 lower
and `stats.loaded` 2 higher. -/
theorem slot_released_twice (m : ImageManager) (c ms : Nat) (src : String) (k : Container)
    (ht : m.tasks = [Task.attempt c 0 src ms]) (hq : m.loadingQueue = [])
    (hk : m.containers[c]? = some k) (hs : k.src ≠ "") (hl : k.loaded ≠ some Marker.success)
    (hr : m.maxRetries = 3) :
    (m.run traceErrorsThenTimeout).tasks = [] ∧
    (m.run traceErrorsThenTimeout).isFailed c = true ∧
    (m.run traceErrorsThenTimeout).currentLoadings = m.currentLoadings - 2 ∧
    (m.run traceTwoTimeouts).tasks
      = [Task.compressedLoad c k.src (replaceFirst k.src "/camera/" "/camera/compressed/"),
         Task.attempt c 2 k.src m.timeout] ∧
    (m.run (traceTwoTimeouts ++
      [Event.image 0 Outcome.load, Event.image 0 Outcome.load])).tasks = [] ∧
    (m.run (traceTwoTimeouts ++
      [Event.image 0 Outcome.load, Event.image 0 Outcome.load])).currentLoadings
      = m.currentLoadings - 2 ∧
    (m.run (traceTwoTimeouts ++
      [Event.image 0 Outcome.load, Event.image 0 Outcome.load])).stats.loaded
      = m.stats.loaded + 2 := by
  have hlt : c < m.containers.length := (List.getElem?_eq_some_iff.mp hk).1
  refine ⟨?_, ?_, ?_, ?_, ?_, ?_, ?_⟩
  all_goals simp [traceErrorsThenTimeout, traceTwoTimeouts, run, step, resolve, expire,
    handleImageTimeout, handleImageError, handleImageLoad, retryWithFallback,
    fallbackCallback, loadWithQualityReduction, showErrorState, updateContainer, loadImage,
    loadImageWith, showLoadingState, processQueue_nil, isFailed, ht, hk, hs, hl, hlt, hq, hr]
  all_goals omega

/-- Witness of `slot_released_twice`: container 3 of the example page. -/
theorem slot_released_twice_witness :
    exampleAdmitted.tasks = [Task.attempt 3 0 "img/camera/4.jpg" 10000] ∧
    ((exampleAdmitted.run traceErrorsThenTimeout).tasks = [] ∧
      (exampleAdmitted.run traceErrorsThenTimeout).isFailed 3 = true ∧
      (exampleAdmitted.run traceErrorsThenTimeout).currentLoadings
        = exampleAdmitted.currentLoadings - 2 ∧
      (exampleAdmitted.run traceTwoTimeouts).tasks
        = [Task.compressedLoad 3 "img/camera/4.jpg"
            (replaceFirst "img/camera/4.jpg" "/camera/" "/camera/compressed/"),
           Task.attempt 3 2 "img/camera/4.jpg" exampleAdmitted.timeout] ∧
      (exampleAdmitted.run (traceTwoTimeouts ++
        [Event.image 0 Outcome.load, Event.image 0 Outcome.load])).tasks = [] ∧
      (exampleAdmitted.run (traceTwoTimeouts ++
        [Event.image 0 Outcome.load, Event.image 0 Outcome.load])).currentLoadings
        = exampleAdmitted.currentLoadings - 2 ∧
      (exampleAdmitted.run (traceTwoTimeouts ++
        [Event.image 0 Outcome.load, Event.image 0 Outcome.load])).stats.loaded
        = exampleAdmitted.stats.loaded + 2) :=
  ⟨by decide, slot_released_twice exampleAdmitted 3 10000 "img/camera/4.jpg"
    { src := "img/camera/4.jpg", loading := true } (by decide) (by decide) (by decide)
    (by decide) (by decide) (by decide)⟩

/-- C4 (code defect).  Three consecutive timeouts from the first fetch on do lead to
`loadWithPlaceholder`, and when the placeholder loads the generated SVG is shown and the
request is not Failed; but `img.onload` writes the marker `placeholder` and then calls
`handleImageLoad`, which overwrites it: the marker ends as `success`. -/
theorem placeholder_marker_overwritten (m : ImageManager) (c ms : Nat) (src : String)
    (k : Container) (ht : m.tasks = [Task.attempt c 0 src ms]) (hq : m.loadingQueue = [])
    (hk : m.containers[c]? = some k) (hs : k.src ≠ "") (hl : k.loaded ≠ some Marker.success)
    (hr : m.maxRetries = 3) :
    (m.run traceThreeTimeouts).tasks
      = [Task.compressedLoad c k.src (replaceFirst k.src "/camera/" "/camera/compressed/"),
         Task.retryTimer c 2 3000,
         Task.placeholderLoad c (Url.svgBlob (if k.offsetWidth = 0 then 400 else k.offsetWidth)
           (if k.offsetHeight = 0 then 300 else k.offsetHeight))] ∧
    (m.run (traceThreeTimeouts ++ [Event.image 2 Outcome.load])).containers[c]?
      = some { showLoadingState k with
          loaded := some Marker.success
          loading := false
          lazySrc := some (Url.svgBlob (if k.offsetWidth = 0 then 400 else k.offsetWidth)
            (if k.offsetHeight = 0 then 300 else k.offsetHeight)) } ∧
    (m.run (traceThreeTimeouts ++ [Event.image 2 Outcome.load])).isFailed c = false := by
  have hlt : c < m.containers.length := (List.getElem?_eq_some_iff.mp hk).1
  refine ⟨?_, ?_, ?_⟩
  all_goals simp [traceThreeTimeouts, traceTwoTimeouts, run, step, resolve, expire,
    handleImageTimeout, handleImageError, handleImageLoad, retryWithFallback,
    fallbackCallback, loadWithQualityReduction, loadWithPlaceholder, showErrorState,
    updateContainer, loadImage, loadImageWith, showLoadingState, processQueue_nil, isFailed,
    ht, hk, hs, hl, hlt, hq, hr]

/-- Witness of `placeholder_marker_overwritten`: container 3 of the example page. -/
theorem placeholder_marker_overwritten_witness :
    exampleAdmitted.tasks = [Task.attempt 3 0 "img/camera/4.jpg" 10000] ∧
    ((exampleAdmitted.run traceThreeTimeouts).tasks
        = [Task.compressedLoad 3 "img/camera/4.jpg"
            (replaceFirst "img/camera/4.jpg" "/camera/" "/camera/compressed/"),
           Task.retryTimer 3 2 3000,
           Task.placeholderLoad 3 (Url.svgBlob 400 300)] ∧
      (exampleAdmitted.run (traceThreeTimeouts ++ [Event.image 2 Outcome.load])).containers[3]?
        = some { showLoadingState { src := "img/camera/4.jpg", loading := true } with
            loaded := some Marker.success
            loading := false
            lazySrc := some (Url.svgBlob 400 300) } ∧
      (exampleAdmitted.run (traceThreeTimeouts ++ [Event.image 2 Outcome.load])).isFailed 3
        = false) :=
  ⟨by decide, placeholder_marker_overwritten exampleAdmitted 3 10000 "img/camera/4.jpg"
    { src := "img/camera/4.jpg", loading := true } (by decide) (by decide) (by decide)
    (by decide) (by decide) (by decide)⟩

/-- C5 (code defect).  The first fetch times out, the retry times out as well and the
compressed image then loads: `stats.loaded` grows by 1 and the compressed image is
shown, but `img.onload` writes the marker `compressed` and then calls `handleImageLoad`,
which overwrites it: the marker is `success` after the success handling.  The fetch with
retryCount 2, started beside the compressed load, is still pending. -/
theorem compressed_marker_overwritten (m : ImageManager) (c ms : Nat) (src : String)
    (k : Container) (ht : m.tasks = [Task.attempt c 0 src ms]) (hq : m.loadingQueue = [])
    (hk : m.containers[c]? = some k) (hs : k.src ≠ "") (hl : k.loaded ≠ some Marker.success)
    (hr : m.maxRetries = 3) :
    (m.run traceTwoTimeouts).tasks
      = [Task.compressedLoad c k.src (replaceFirst k.src "/camera/" "/camera/compressed/"),
         Task.attempt c 2 k.src m.timeout] ∧
    (m.run (traceTwoTimeouts ++ [Event.image 0 Outcome.load])).containers[c]?
      = some { showLoadingState k with
          loaded := some Marker.success
          loading := false
          lazySrc := some (Url.path (replaceFirst k.src "/camera/" "/camera/compressed/")) } ∧
    (m.run (traceTwoTimeouts ++ [Event.image 0 Outcome.load])).stats.loaded
      = m.stats.loaded + 1 ∧
    (m.run (traceTwoTimeouts ++ [Event.image 0 Outcome.load])).tasks
      = [Task.attempt c 2 k.src m.timeout] := by
  have hlt : c < m.containers.length := (List.getElem?_eq_some_iff.mp hk).1
  refine ⟨?_, ?_, ?_, ?_⟩
  all_goals simp [traceTwoTimeouts, run, step, resolve, expire,
    handleImageTimeout, handleImageError, handleImageLoad, retryWithFallback,
    fallbackCallback, loadWithQualityReduction, showErrorState,
    updateContainer, loadImage, loadImageWith, showLoadingState, processQueue_nil,
    ht, hk, hs, hl, hlt, hq, hr]

/-- Witness of `compressed_marker_overwritten`: container 3 of the example page. -/
theorem compressed_marker_overwritten_witness :
    exampleAdmitted.tasks = [Task.attempt 3 0 "img/camera/4.jpg" 10000] ∧
    ((exampleAdmitted.run traceTwoTimeouts).tasks
        = [Task.compressedLoad 3 "img/camera/4.jpg"
            (replaceFirst "img/camera/4.jpg" "/camera/" "/camera/compressed/"),
           Task.attempt 3 2 "img/camera/4.jpg" exampleAdmitted.timeout] ∧
      (exampleAdmitted.run (traceTwoTimeouts ++ [Event.image 0 Outcome.load])).containers[3]?
        = some { showLoadingState { src := "img/camera/4.jpg", loading := true } with
            loaded := some Marker.success
            loading := false
            lazySrc := some (Url.path
              (replaceFirst "img/camera/4.jpg" "/camera/" "/camera/compressed/")) } ∧
      (exampleAdmitted.run (traceTwoTimeouts ++ [Event.image 0 Outcome.load])).stats.loaded
        = exampleAdmitted.stats.loaded + 1 ∧
      (exampleAdmitted.run (traceTwoTimeouts ++ [Event.image 0 Outcome.load])).tasks
        = [Task.attempt 3 2 "img/camera/4.jpg" exampleAdmitted.timeout]) :=
  ⟨by decide, compressed_marker_overwritten exampleAdmitted 3 10000 "img/camera/4.jpg"
    { src := "img/camera/4.jpg", loading := true } (by decide) (by decide) (by decide)
    (by decide) (by decide) (by decide)⟩

/-- C10 (code defect).  With retryCount below `maxRetries`, an error arms one timer of
`1000 * (retryCount + 1)` ms whose callback is `loadImage(container, retryCount + 1)`,
and leaves the queue and `currentLoadings` alone.  A timeout arms the 2000 ms fallback
timer, but the error event of the aborted image then runs `handleImageError` as well,
which arms the `1000 * (retryCount + 1)` ms timer for `loadImage(container,
retryCount + 1)`; for retryCount 0 the callback of the 2000 ms timer does nothing, so the
one re-attempt after a first timeout comes after 1000 ms, and for retryCount 1 it requests
the compressed image, so that two re-attempts follow the one timeout. -/
theorem retry_schedule (m : ImageManager) (c r ms : Nat) (src : String) (k : Container)
    (ht : m.tasks = [Task.attempt c r src ms]) (hk : m.containers[c]? = some k)
    (hr : r < m.maxRetries) :
    m.step (Event.image 0 Outcome.error) = { m with
      stats := { m.stats with failed := m.stats.failed + 1, retries := m.stats.retries + 1 }
      tasks := [Task.retryTimer c r (1000 * (r + 1))] } ∧
    m.step (Event.image 0 Outcome.timeout) = { m with
      tasks := [Task.abortedError c r, Task.fallbackTimer c r k.src 2000] } ∧
    m.run [Event.image 0 Outcome.timeout, Event.image 0 Outcome.error] = { m with
      stats := { m.stats with failed := m.stats.failed + 1, retries := m.stats.retries + 1 }
      tasks := [Task.fallbackTimer c r k.src 2000, Task.retryTimer c r (1000 * (r + 1))] } ∧
    (∀ (x : ImageManager) (d : Nat),
      expire x (Task.retryTimer c r d) = some (x.loadImage c (r + 1))) ∧
    (∀ (x : ImageManager) (s : String) (d : Nat),
      expire x (Task.fallbackTimer c 0 s d) = some x) ∧
    (∀ (x : ImageManager) (s : String) (d : Nat),
      expire x (Task.fallbackTimer c 1 s d) = some (x.loadWithQualityReduction c s)) := by
  refine ⟨?_, ?_, ?_, fun _ _ => rfl, fun _ _ _ => rfl, fun _ _ _ => rfl⟩
  all_goals simp [run, step, resolve, handleImageError, handleImageTimeout, retryWithFallback,
    ht, hk, hr]

/-- Witness of `retry_schedule`: the first fetch of container 3 of the example page. -/
theorem retry_schedule_witness :
    exampleAdmitted.tasks = [Task.attempt 3 0 "img/camera/4.jpg" 10000] ∧
    (exampleAdmitted.step (Event.image 0 Outcome.error) = { exampleAdmitted with
        stats := { exampleAdmitted.stats with
          failed := exampleAdmitted.stats.failed + 1
          retries := exampleAdmitted.stats.retries + 1 }
        tasks := [Task.retryTimer 3 0 (1000 * (0 + 1))] } ∧
      exampleAdmitted.step (Event.image 0 Outcome.timeout) = { exampleAdmitted with
        tasks := [Task.abortedError 3 0, Task.fallbackTimer 3 0 "img/camera/4.jpg" 2000] } ∧
      exampleAdmitted.run [Event.image 0 Outcome.timeout, Event.image 0 Outcome.error]
        = { exampleAdmitted with
            stats := { exampleAdmitted.stats with
              failed := exampleAdmitted.stats.failed + 1
              retries := exampleAdmitted.stats.retries + 1 }
            tasks := [Task.fallbackTimer 3 0 "img/camera/4.jpg" 2000,
              Task.retryTimer 3 0 (1000 * (0 + 1))] } ∧
      (∀ (x : ImageManager) (d : Nat),
        expire x (Task.retryTimer 3 0 d) = some (x.loadImage 3 (0 + 1))) ∧
      (∀ (x : ImageManager) (s : String) (d : Nat),
        expire x (Task.fallbackTimer 3 0 s d) = some x) ∧
      (∀ (x : ImageManager) (s : String) (d : Nat),
        expire x (Task.fallbackTimer 3 1 s d) = some (x.loadWithQualityReduction 3 s))) :=
  ⟨by decide, retry_schedule exampleAdmitted 3 0 10000 "img/camera/4.jpg"
    { src := "img/camera/4.jpg", loading := true } (by decide) (by decide) (by decide)⟩

end ImageManager

namespace ImageManager

/-! ## The invariant of reachable states -/

theorem sources_set (cs : List Container) (c : Nat) (k k2 : Container)
    (hk : cs[c]? = some k) (hsrc : k2.src = k.src) :
    (cs.set c k2).map Container.src = cs.map Container.src := by
  apply List.ext_getElem?
  intro j
  by_cases hj : c = j
  · subst hj
    have hlt : c < cs.length := (List.getElem?_eq_some_iff.mp hk).1
    have hget : cs[c] = k := (List.getElem?_eq_some_iff.mp hk).2
    simp [hlt, hsrc, hget]
  · simp [List.getElem?_set_ne hj]

theorem inv_congr (S : List String) (m m2 : ImageManager) (h : Inv S m)
    (h1 : m2.maxRetries = m.maxRetries) (h2 : m2.containers = m.containers)
    (h3 : ∀ t ∈ m2.tasks, t ∈ m.tasks ∨ TaskOk S t) : Inv S m2 := by
  obtain ⟨a, b, c, d⟩ := h
  refine ⟨h1.trans a, ?_, ?_, ?_⟩
  · simp only [sources, h2]; exact b
  · intro t ht
    rcases h3 t ht with h4 | h4
    · exact c t h4
    · exact h4
  · intro j k hk
    rw [h2] at hk
    exact d j k hk

theorem inv_same (S : List String) (m m2 : ImageManager) (h : Inv S m)
    (h1 : m2.maxRetries = m.maxRetries) (h2 : m2.containers = m.containers)
    (h3 : m2.tasks = m.tasks) : Inv S m2 :=
  inv_congr S m m2 h h1 h2 (fun _ ht => Or.inl (h3 ▸ ht))

theorem inv_append (S : List String) (m m2 : ImageManager) (h : Inv S m) (t : Task)
    (h1 : m2.maxRetries = m.maxRetries) (h2 : m2.containers = m.containers)
    (h3 : m2.tasks = m.tasks ++ [t]) (ht : TaskOk S t) : Inv S m2 := by
  refine inv_congr S m m2 h h1 h2 ?_
  intro x hx
  rw [h3] at hx
  simp only [List.mem_append, List.mem_singleton] at hx
  rcases hx with hx | hx
  · exact Or.inl hx
  · exact Or.inr (hx ▸ ht)

theorem inv_update (S : List String) (m m2 : ImageManager) (h : Inv S m) (c : Nat)
    (k k2 : Container) (hk : m.containers[c]? = some k) (hsrc : k2.src = k.src)
    (hok : ContOk c k2) (h1 : m2.maxRetries = m.maxRetries)
    (h2 : m2.containers = m.containers.set c k2)
    (h3 : ∀ t ∈ m2.tasks, t ∈ m.tasks ∨ TaskOk S t) : Inv S m2 := by
  obtain ⟨a, b, cc, d⟩ := h
  refine ⟨h1.trans a, ?_, ?_, ?_⟩
  · simp only [sources, h2]
    rw [sources_set _ c k k2 hk hsrc]
    exact b
  · intro t ht
    rcases h3 t ht with h4 | h4
    · exact cc t h4
    · exact h4
  · intro j x hx
    rw [h2] at hx
    by_cases hj : c = j
    · subst hj
      rw [getElem?_set_same _ _ _ _ hk] at hx
      cases hx
      exact hok
    · rw [List.getElem?_set_ne hj] at hx
      exact d j x hx

theorem inv_hasSrc (S : List String) (m : ImageManager) (h : Inv S m) (c : Nat)
    (k : Container) (hk : m.containers[c]? = some k) (hs : k.src ≠ "") : HasSrc S c := by
  refine ⟨k.src, ?_, hs⟩
  rw [← h.2.1]
  simp [sources, hk]

theorem inv_container (S : List String) (m : ImageManager) (h : Inv S m) (c : Nat)
    (hc : HasSrc S c) : ∃ k : Container, m.containers[c]? = some k ∧ k.src ≠ "" := by
  obtain ⟨s, hs, hne⟩ := hc
  rw [← h.2.1] at hs
  simp only [sources, List.getElem?_map, Option.map_eq_some'] at hs
  obtain ⟨k, hk, hks⟩ := hs
  exact ⟨k, hk, by rw [hks]; exact hne⟩

theorem inv_updateContainer (S : List String) (m : ImageManager) (h : Inv S m) (c : Nat)
    (f : Container → Container)
    (hf : ∀ k : Container, m.containers[c]? = some k → (f k).src = k.src ∧ ContOk c (f k)) :
    Inv S (m.updateContainer c f) := by
  unfold updateContainer
  cases hk : m.containers[c]? with
  | none => exact h
  | some k =>
    exact inv_update S m _ h c k (f k) hk (hf k hk).1 (hf k hk).2 rfl rfl
      (fun t ht => Or.inl ht)

/-- An update that leaves source, retry button and error element alone keeps the invariant. -/
theorem inv_updateContainer_plain (S : List String) (m : ImageManager) (h : Inv S m) (c : Nat)
    (f : Container → Container)
    (hf : ∀ k : Container, (f k).src = k.src ∧ (f k).retryBtn = k.retryBtn ∧
      ((f k).errorShown = true → k.errorShown = true)) :
    Inv S (m.updateContainer c f) := by
  refine inv_updateContainer S m h c f ?_
  intro k hk
  obtain ⟨a, b, d⟩ := hf k
  obtain ⟨o1, o2⟩ := h.2.2.2 c k hk
  refine ⟨a, ?_, ?_⟩
  · intro btn hb
    rw [b] at hb
    rw [a]
    exact o1 btn hb
  · intro he
    rw [a, b]
    exact o2 (d he)

theorem inv_loadImageWith (S : List String) (pq : ImageManager → ImageManager)
    (hpq : ∀ x : ImageManager, Inv S x → Inv S (pq x)) (m : ImageManager) (h : Inv S m)
    (c r : Nat) (hr : r ≤ 3) : Inv S (loadImageWith pq m c r) := by
  unfold loadImageWith
  cases hk : m.containers[c]? with
  | none => exact h
  | some k =>
    simp only
    split
    · exact h
    · rename_i hs
      split
      · apply hpq
        exact inv_same S m _ h rfl rfl rfl
      · refine inv_update S m _ h c k (showLoadingState k) hk rfl ?_ rfl rfl ?_
        · exact ⟨(h.2.2.2 c k hk).1, fun he => by simp [showLoadingState] at he⟩
        · intro t ht
          simp only [List.mem_append, List.mem_singleton] at ht
          rcases ht with ht | ht
          · exact Or.inl ht
          · right
            rw [ht]
            exact ⟨hr, inv_hasSrc S m h c k hk hs⟩

theorem inv_processQueueN (S : List String) (n : Nat) :
    ∀ m : ImageManager, Inv S m → Inv S (processQueueN n m) := by
  induction n with
  | zero => intro m h; exact h
  | succ n ih =>
    intro m h
    unfold processQueueN
    split
    · exact h
    · split
      · apply ih
        apply inv_loadImageWith S _ ih _ _ _ 0 (by decide)
        exact inv_same S m _ h rfl rfl rfl
      · exact h

theorem inv_processQueue (S : List String) (m : ImageManager) (h : Inv S m) :
    Inv S (processQueue m) :=
  inv_processQueueN S _ m h

theorem inv_loadImage (S : List String) (m : ImageManager) (h : Inv S m) (c r : Nat)
    (hr : r ≤ 3) : Inv S (loadImage m c r) :=
  inv_loadImageWith S _ (inv_processQueue S) m h c r hr

theorem inv_addToQueue (S : List String) (m : ImageManager) (h : Inv S m) (c : Nat) :
    Inv S (addToQueue m c) := by
  unfold addToQueue
  apply inv_processQueue
  exact inv_same S m _ h rfl rfl rfl

theorem inv_handleImageLoad (S : List String) (m : ImageManager) (h : Inv S m) (c : Nat)
    (url : Url) : Inv S (m.handleImageLoad c url) := by
  unfold handleImageLoad
  apply inv_processQueue
  refine inv_same S (m.updateContainer c (fun k =>
    { k with loaded := some Marker.success, loading := false, lazySrc := some url })) _
    ?_ rfl rfl rfl
  exact inv_updateContainer_plain S m h c _ (fun k => ⟨rfl, rfl, fun he => he⟩)

theorem inv_showErrorState (S : List String) (m : ImageManager) (h : Inv S m) (c : Nat)
    (hc : HasSrc S c) : Inv S (m.showErrorState c) := by
  unfold showErrorState
  refine inv_updateContainer S m h c _ ?_
  intro k hk
  obtain ⟨k2, hk2, hs⟩ := inv_container S m h c hc
  have hkk : k2 = k := Option.some.inj (hk2.symm.trans hk)
  subst hkk
  refine ⟨rfl, ?_, ?_⟩
  · intro b hb
    simp only [Option.some.injEq] at hb
    exact hb.symm
  · intro _
    exact ⟨by simp, hs⟩

theorem inv_release (S : List String) (m : ImageManager) (h : Inv S m) (c : Nat)
    (hc : HasSrc S c) :
    Inv S (processQueue { m.showErrorState c with
      currentLoadings := (m.showErrorState c).currentLoadings - 1 }) := by
  apply inv_processQueue
  exact inv_same S (m.showErrorState c) _ (inv_showErrorState S m h c hc) rfl rfl rfl

theorem inv_handleImageError (S : List String) (m : ImageManager) (h : Inv S m) (c r : Nat)
    (hc : HasSrc S c) : Inv S (m.handleImageError c r) := by
  have hm : m.maxRetries = 3 := h.1
  have h1 : Inv S { m with stats :=
      { m.stats with failed := m.stats.failed + 1, retries := m.stats.retries + 1 } } :=
    inv_same S m _ h rfl rfl rfl
  unfold handleImageError
  simp only
  split
  · rename_i hlt
    refine inv_append S _ _ h1 _ rfl rfl rfl ?_
    exact ⟨by rw [hm] at hlt; exact hlt, hc⟩
  · exact inv_release S _ h1 c hc

theorem inv_handleImageTimeout (S : List String) (m : ImageManager) (h : Inv S m)
    (c r : Nat) (hr : r ≤ 3) (hc : HasSrc S c) : Inv S (m.handleImageTimeout c r) := by
  have h1 : Inv S { m with tasks := m.tasks ++ [Task.abortedError c r] } :=
    inv_append S m _ h (Task.abortedError c r) rfl rfl rfl ⟨hr, hc⟩
  unfold handleImageTimeout
  simp only
  split
  · unfold retryWithFallback
    split
    · exact h1
    · refine inv_append S _ _ h1 _ rfl rfl rfl ?_
      exact hc
  · exact inv_release S _ h1 c hc

theorem inv_fallbackCallback (S : List String) (m : ImageManager) (h : Inv S m) (c r : Nat)
    (src : String) (hc : HasSrc S c) : Inv S (m.fallbackCallback c r src) := by
  unfold fallbackCallback
  split
  · unfold loadWithQualityReduction
    refine inv_append S m _ h _ rfl rfl rfl ?_
    exact hc
  · split
    · unfold loadWithPlaceholder
      split
      · exact h
      · refine inv_append S m _ h _ rfl rfl rfl ?_
        trivial
    · exact h

theorem inv_retryImage (S : List String) (m : ImageManager) (h : Inv S m) (c : Nat) :
    Inv S (m.retryImage c) := by
  unfold retryImage
  cases hk : m.containers[c]? with
  | none => exact h
  | some k =>
    simp only
    cases hb : k.retryBtn with
    | none => exact h
    | some b =>
      simp only
      have hbe := (h.2.2.2 c k hk).1 b hb
      subst hbe
      simp only [Int.toNat_ofNat, Int.ofNat_zero_le, if_true, hk]
      apply inv_loadImage S _ _ c 0 (by decide)
      refine inv_updateContainer S m h c _ ?_
      intro k2 hk2
      have hkk : k2 = k := Option.some.inj (hk2.symm.trans hk)
      subst hkk
      exact ⟨rfl, h.2.2.2 c k2 hk⟩

theorem inv_checkVisibility (S : List String) (near : List Nat) (cs : List Nat) :
    ∀ m : ImageManager, Inv S m → Inv S (checkVisibility near cs m) := by
  induction cs with
  | nil => intro m h; exact h
  | cons c cs ih =>
    intro m h
    unfold checkVisibility
    split
    · exact ih m h
    · split
      · apply ih
        apply inv_addToQueue
        exact inv_updateContainer_plain S m h c _ (fun k => ⟨rfl, rfl, fun he => he⟩)
      · exact ih m h

theorem inv_erase (S : List String) (m : ImageManager) (h : Inv S m) (i : Nat) :
    Inv S { m with tasks := m.tasks.eraseIdx i } :=
  inv_congr S m _ h rfl rfl (fun _ ht => Or.inl (List.mem_of_mem_eraseIdx ht))

theorem inv_step (S : List String) (m : ImageManager) (h : Inv S m) (e : Event) :
    Inv S (m.step e) := by
  cases e with
  | timer i =>
    simp only [step]
    cases ht : m.tasks[i]? with
    | none => exact h
    | some t =>
      have hok : TaskOk S t := h.2.2.1 t (List.getElem?_mem ht)
      have he := inv_erase S m h i
      cases t with
      | startTimer c d => exact inv_loadImage S _ he c 0 (by decide)
      | retryTimer c r d => exact inv_loadImage S _ he c (r + 1) hok.1
      | fallbackTimer c r src d => exact inv_fallbackCallback S _ he c r src hok
      | attempt c r src ms => exact h
      | compressedLoad c src csrc => exact h
      | originalLoad c src => exact h
      | placeholderLoad c url => exact h
      | abortedError c r => exact h
  | image i o =>
    simp only [step]
    cases ht : m.tasks[i]? with
    | none => exact h
    | some t =>
      have hok : TaskOk S t := h.2.2.1 t (List.getElem?_mem ht)
      have he := inv_erase S m h i
      cases t with
      | startTimer c d => cases o <;> exact h
      | retryTimer c r d => cases o <;> exact h
      | fallbackTimer c r src d => cases o <;> exact h
      | attempt c r src ms =>
        cases o with
        | load => exact inv_handleImageLoad S _ he c _
        | error => exact inv_handleImageError S _ he c r hok.2
        | timeout => exact inv_handleImageTimeout S _ he c r hok.1 hok.2
      | compressedLoad c src csrc =>
        cases o with
        | load =>
          apply inv_handleImageLoad
          exact inv_updateContainer_plain S _ he c _ (fun k => ⟨rfl, rfl, fun x => x⟩)
        | error =>
          refine inv_append S _ _ he _ rfl rfl rfl ?_
          exact hok
        | timeout => exact h
      | originalLoad c src =>
        cases o with
        | load => exact inv_handleImageLoad S _ he c _
        | error => exact inv_showErrorState S _ he c hok
        | timeout => exact h
      | placeholderLoad c url =>
        cases o with
        | load =>
          apply inv_handleImageLoad
          exact inv_updateContainer_plain S _ he c _ (fun k => ⟨rfl, rfl, fun x => x⟩)
        | error => exact he
        | timeout => exact h
      | abortedError c r =>
        cases o with
        | load => exact h
        | error => exact inv_handleImageError S _ he c r hok.2
        | timeout => exact h
  | intersect c =>
    simp only [step]
    split
    · exact h
    · split
      · exact inv_same S (m.addToQueue c) _ (inv_addToQueue S m h c) rfl rfl rfl
      · exact h
  | scroll near =>
    simp only [step]
    split
    · exact inv_checkVisibility S near _ m h
    · exact h
  | retryClick c =>
    simp only [step]
    split
    · exact h
    · split
      · exact inv_retryImage S m h c
      · exact h
  | offline => exact inv_same S m _ h rfl rfl rfl
  | online =>
    apply inv_processQueue
    exact inv_same S m _ h rfl rfl rfl

theorem inv_init (cs : List Container) (obs : Bool) (hf : Fresh cs) :
    Inv (cs.map Container.src) (init cs obs) := by
  refine ⟨rfl, rfl, ?_, ?_⟩
  · intro t ht
    simp only [init, List.mem_map] at ht
    obtain ⟨i, _, rfl⟩ := ht
    trivial
  · intro c k hk
    have hmem : k ∈ cs := List.getElem?_mem hk
    obtain ⟨h1, h2⟩ := hf k hmem
    refine ⟨?_, ?_⟩
    · intro b hb
      rw [h1] at hb
      cases hb
    · intro he
      rw [h2] at he
      cases he

theorem inv_run (S : List String) (es : List Event) :
    ∀ m : ImageManager, Inv S m → Inv S (m.run es) := by
  induction es with
  | nil => intro m h; exact h
  | cons e es ih => intro m h; exact ih _ (inv_step S m h e)

end ImageManager

namespace ImageManager

/-! ## Which events put a container in Failed -/

theorem isFailed_congr (m m2 : ImageManager) (c : Nat) (h : m2.containers = m.containers) :
    m2.isFailed c = m.isFailed c := by
  simp only [isFailed, h]

theorem failedSub_refl (m : ImageManager) : FailedSub m m := fun _ h => h

theorem failedSub_trans (m3 m2 m1 : ImageManager) (h : FailedSub m3 m2) (h2 : FailedSub m2 m1) :
    FailedSub m3 m1 := fun c hc => h2 c (h c hc)

theorem failedSub_same (m2 m1 : ImageManager) (h : m2.containers = m1.containers) :
    FailedSub m2 m1 := by
  intro c hc
  rw [isFailed_congr m1 m2 c h] at hc
  exact hc

theorem isFailed_set (m : ImageManager) (c c2 : Nat) (k k2 : Container)
    (hk : m.containers[c]? = some k) (m2 : ImageManager)
    (h2 : m2.containers = m.containers.set c k2) :
    m2.isFailed c2 = if c = c2 then k2.errorShown else m.isFailed c2 := by
  by_cases hj : c = c2
  · subst hj
    simp only [isFailed, h2, getElem?_set_same _ _ _ _ hk, if_true]
  · simp only [isFailed, h2, List.getElem?_set_ne hj, if_neg hj]

theorem failedSub_updateContainer (m : ImageManager) (c : Nat) (f : Container → Container)
    (hf : ∀ k : Container, (f k).errorShown = true → k.errorShown = true) :
    FailedSub (m.updateContainer c f) m := by
  unfold updateContainer
  cases hk : m.containers[c]? with
  | none => exact failedSub_refl m
  | some k =>
    intro c2 h2
    rw [isFailed_set m c c2 k (f k) hk _ rfl] at h2
    by_cases hj : c = c2
    · subst hj
      rw [if_pos rfl] at h2
      simp only [isFailed, hk]
      exact hf k h2
    · rw [if_neg hj] at h2
      exact h2

theorem failedSub_loadImageWith (pq : ImageManager → ImageManager)
    (hpq : ∀ x : ImageManager, FailedSub (pq x) x) (m : ImageManager) (c r : Nat) :
    FailedSub (loadImageWith pq m c r) m := by
  unfold loadImageWith
  cases hk : m.containers[c]? with
  | none => exact failedSub_refl m
  | some k =>
    simp only
    split
    · exact failedSub_refl m
    · split
      · exact failedSub_trans _ _ _ (hpq _) (failedSub_same _ _ rfl)
      · intro c2 h2
        rw [isFailed_set m c c2 k (showLoadingState k) hk _ rfl] at h2
        by_cases hj : c = c2
        · rw [if_pos hj] at h2
          simp [showLoadingState] at h2
        · rw [if_neg hj] at h2
          exact h2

theorem failedSub_processQueueN (n : Nat) :
    ∀ m : ImageManager, FailedSub (processQueueN n m) m := by
  induction n with
  | zero => intro m; exact failedSub_refl m
  | succ n ih =>
    intro m
    unfold processQueueN
    split
    · exact failedSub_refl m
    · split
      · refine failedSub_trans _ _ _ (ih _) ?_
        refine failedSub_trans _ _ _ (failedSub_loadImageWith _ ih _ _ 0) ?_
        exact failedSub_same _ _ rfl
      · exact failedSub_refl m

theorem failedSub_processQueue (m : ImageManager) : FailedSub (processQueue m) m :=
  failedSub_processQueueN _ m

theorem failedSub_loadImage (m : ImageManager) (c r : Nat) : FailedSub (loadImage m c r) m :=
  failedSub_loadImageWith _ failedSub_processQueue m c r

theorem failedSub_addToQueue (m : ImageManager) (c : Nat) : FailedSub (addToQueue m c) m :=
  failedSub_trans _ _ _ (failedSub_processQueue _) (failedSub_same _ _ rfl)

theorem failedSub_handleImageLoad (m : ImageManager) (c : Nat) (url : Url) :
    FailedSub (m.handleImageLoad c url) m := by
  unfold handleImageLoad
  refine failedSub_trans _ _ _ (failedSub_processQueue _) ?_
  refine failedSub_trans _ (m.updateContainer c (fun k =>
    { k with loaded := some Marker.success, loading := false, lazySrc := some url })) _
    (failedSub_same _ _ rfl) ?_
  exact failedSub_updateContainer m c _ (fun _ h => h)

theorem failedSub_fallbackCallback (m : ImageManager) (c r : Nat) (src : String) :
    FailedSub (m.fallbackCallback c r src) m := by
  unfold fallbackCallback
  split
  · exact failedSub_same _ _ rfl
  · split
    · unfold loadWithPlaceholder
      split
      · exact failedSub_refl m
      · exact failedSub_same _ _ rfl
    · exact failedSub_refl m

theorem failedSub_retryImage (m : ImageManager) (c : Nat) : FailedSub (m.retryImage c) m := by
  unfold retryImage
  split
  · exact failedSub_refl m
  · split
    · exact failedSub_refl m
    · split
      · simp only
        split
        · exact failedSub_refl m
        · refine failedSub_trans _ _ _ (failedSub_loadImage _ _ 0) ?_
          exact failedSub_updateContainer m _ _ (fun _ h => h)
      · exact failedSub_refl m

theorem failedSub_checkVisibility (near : List Nat) (cs : List Nat) :
    ∀ m : ImageManager, FailedSub (checkVisibility near cs m) m := by
  induction cs with
  | nil => intro m; exact failedSub_refl m
  | cons c cs ih =>
    intro m
    unfold checkVisibility
    split
    · exact ih m
    · split
      · refine failedSub_trans _ _ _ (ih _) ?_
        refine failedSub_trans _ _ _ (failedSub_addToQueue _ c) ?_
        exact failedSub_updateContainer m c _ (fun _ h => h)
      · exact ih m

/-- After `showErrorState(c)` only `c` can newly show the error element. -/
theorem failed_showErrorState (m : ImageManager) (c c2 : Nat)
    (h : (m.showErrorState c).isFailed c2 = true) : c2 = c ∨ m.isFailed c2 = true := by
  unfold showErrorState updateContainer at h
  cases hk : m.containers[c]? with
  | none =>
    rw [hk] at h
    exact Or.inr h
  | some k =>
    rw [hk] at h
    simp only at h
    rw [isFailed_set m c c2 k _ hk _ rfl] at h
    by_cases hj : c = c2
    · exact Or.inl hj.symm
    · rw [if_neg hj] at h
      exact Or.inr h

theorem failed_release (m : ImageManager) (c c2 : Nat)
    (h : (processQueue { m.showErrorState c with
      currentLoadings := (m.showErrorState c).currentLoadings - 1 }).isFailed c2 = true) :
    c2 = c ∨ m.isFailed c2 = true := by
  have h1 := failedSub_processQueue _ c2 h
  exact failed_showErrorState m c c2 h1

end ImageManager

namespace ImageManager

theorem failed_handleImageError (m : ImageManager) (c r c2 : Nat)
    (h : (m.handleImageError c r).isFailed c2 = true) :
    m.isFailed c2 = true ∨ (c2 = c ∧ m.maxRetries ≤ r) := by
  unfold handleImageError at h
  simp only at h
  by_cases hlt : r < m.maxRetries
  · rw [if_pos hlt] at h
    exact Or.inl h
  · rw [if_neg hlt] at h
    rcases failed_release _ c c2 h with h1 | h1
    · exact Or.inr ⟨h1, Nat.le_of_not_lt hlt⟩
    · exact Or.inl h1

theorem failed_handleImageTimeout (m : ImageManager) (c r c2 : Nat)
    (h : (m.handleImageTimeout c r).isFailed c2 = true) :
    m.isFailed c2 = true ∨ (c2 = c ∧ m.maxRetries ≤ r) := by
  unfold handleImageTimeout at h
  simp only at h
  by_cases hlt : r < m.maxRetries
  · rw [if_pos hlt] at h
    left
    unfold retryWithFallback at h
    split at h
    · exact h
    · exact h
  · rw [if_neg hlt] at h
    rcases failed_release _ c c2 h with h1 | h1
    · exact Or.inr ⟨h1, Nat.le_of_not_lt hlt⟩
    · exact Or.inl h1

/-- A container newly shows the error element after an event only if the event is a
failing event of that container. -/
theorem step_failed (m : ImageManager) (e : Event) (c : Nat)
    (h : (m.step e).isFailed c = true) : m.isFailed c = true ∨ FailingEvent m c e := by
  cases e with
  | timer i =>
    left
    cases ht : m.tasks[i]? with
    | none =>
      simp only [step, ht] at h
      exact h
    | some t =>
      simp only [step, ht] at h
      generalize hme : ({ m with tasks := m.tasks.eraseIdx i } : ImageManager) = me at h
      have hcm : me.containers = m.containers := by rw [← hme]
      rw [← isFailed_congr m me c hcm]
      cases t with
      | startTimer c2 d => exact failedSub_loadImage me c2 0 c h
      | retryTimer c2 r d => exact failedSub_loadImage me c2 (r + 1) c h
      | fallbackTimer c2 r src d => exact failedSub_fallbackCallback me c2 r src c h
      | attempt c2 r src ms => exact (isFailed_congr m me c hcm).trans h
      | compressedLoad c2 src csrc => exact (isFailed_congr m me c hcm).trans h
      | originalLoad c2 src => exact (isFailed_congr m me c hcm).trans h
      | placeholderLoad c2 url => exact (isFailed_congr m me c hcm).trans h
      | abortedError c2 r => exact (isFailed_congr m me c hcm).trans h
  | image i o =>
    cases ht : m.tasks[i]? with
    | none =>
      simp only [step, ht] at h
      exact Or.inl h
    | some t =>
      simp only [step, ht] at h
      generalize hme : ({ m with tasks := m.tasks.eraseIdx i } : ImageManager) = me at h
      have hcm : me.containers = m.containers := by rw [← hme]
      have hmx : me.maxRetries = m.maxRetries := by rw [← hme]
      rw [← isFailed_congr m me c hcm]
      have stay : m.isFailed c = true → me.isFailed c = true ∨ FailingEvent m c (Event.image i o) :=
        fun x => Or.inl ((isFailed_congr m me c hcm).trans x)
      cases t with
      | startTimer c2 d => cases o <;> exact stay h
      | retryTimer c2 r d => cases o <;> exact stay h
      | fallbackTimer c2 r src d => cases o <;> exact stay h
      | attempt c2 r src ms =>
        cases o with
        | load => exact Or.inl (failedSub_handleImageLoad me c2 _ c h)
        | error =>
          rcases failed_handleImageError me c2 r c h with h1 | ⟨h1, h2⟩
          · exact Or.inl h1
          · subst h1
            rw [hmx] at h2
            exact Or.inr ⟨i, Or.inl ⟨r, src, ms, ht, h2, Or.inl rfl⟩⟩
        | timeout =>
          rcases failed_handleImageTimeout me c2 r c h with h1 | ⟨h1, h2⟩
          · exact Or.inl h1
          · subst h1
            rw [hmx] at h2
            exact Or.inr ⟨i, Or.inl ⟨r, src, ms, ht, h2, Or.inr rfl⟩⟩
      | compressedLoad c2 src csrc =>
        cases o with
        | load =>
          left
          have h1 := failedSub_handleImageLoad _ c2 _ c h
          refine failedSub_updateContainer me c2 _ ?_ c h1
          intro _ x
          exact x
        | error => exact Or.inl h
        | timeout => exact stay h
      | originalLoad c2 src =>
        cases o with
        | load => exact Or.inl (failedSub_handleImageLoad me c2 _ c h)
        | error =>
          rcases failed_showErrorState me c2 c h with h1 | h1
          · subst h1
            exact Or.inr ⟨i, Or.inr (Or.inr ⟨src, ht, rfl⟩)⟩
          · exact Or.inl h1
        | timeout => exact stay h
      | placeholderLoad c2 url =>
        cases o with
        | load =>
          left
          have h1 := failedSub_handleImageLoad _ c2 _ c h
          refine failedSub_updateContainer me c2 _ ?_ c h1
          intro _ x
          exact x
        | error => exact Or.inl h
        | timeout => exact stay h
      | abortedError c2 r =>
        cases o with
        | load => exact stay h
        | error =>
          rcases failed_handleImageError me c2 r c h with h1 | ⟨h1, h2⟩
          · exact Or.inl h1
          · subst h1
            rw [hmx] at h2
            exact Or.inr ⟨i, Or.inr (Or.inl ⟨r, ht, h2, rfl⟩)⟩
        | timeout => exact stay h
  | intersect c2 =>
    left
    simp only [step] at h
    split at h
    · exact h
    · split at h
      · exact failedSub_addToQueue m c2 c h
      · exact h
  | scroll near =>
    left
    simp only [step] at h
    split at h
    · exact failedSub_checkVisibility near _ m c h
    · exact h
  | retryClick c2 =>
    left
    simp only [step] at h
    split at h
    · exact h
    · split at h
      · exact failedSub_retryImage m c2 c h
      · exact h
  | offline => exact Or.inl h
  | online =>
    left
    exact failedSub_processQueue { m with concurrentLimit := 3 } c h

/-! ## The admission loop leaves containers outside the queue alone -/

theorem loadImageWith_queue_sub (pq : ImageManager → ImageManager)
    (hpq : ∀ (x : ImageManager) (j : Nat), j ∈ (pq x).loadingQueue → j ∈ x.loadingQueue)
    (m : ImageManager) (c r j : Nat) (h : j ∈ (loadImageWith pq m c r).loadingQueue) :
    j ∈ m.loadingQueue := by
  unfold loadImageWith at h
  split at h
  · exact h
  · split at h
    · exact h
    · split at h
      · exact hpq { m with currentLoadings := m.currentLoadings - 1 } j h
      · exact h

theorem processQueueN_queue_sub (n : Nat) :
    ∀ (m : ImageManager) (j : Nat), j ∈ (processQueueN n m).loadingQueue →
      j ∈ m.loadingQueue := by
  induction n with
  | zero => intro m j h; exact h
  | succ n ih =>
    intro m j h
    unfold processQueueN at h
    split at h
    · exact h
    · rename_i c rest hq
      split at h
      · have h1 := loadImageWith_queue_sub _ ih _ c 0 j (ih _ j h)
        rw [hq]
        exact List.mem_cons_of_mem c h1
      · exact h

theorem loadImageWith_container (pq : ImageManager → ImageManager) (c : Nat)
    (hpq : ∀ x : ImageManager, c ∉ x.loadingQueue → (pq x).containers[c]? = x.containers[c]?)
    (m : ImageManager) (j r : Nat) (hj : j ≠ c) (hc : c ∉ m.loadingQueue) :
    (loadImageWith pq m j r).containers[c]? = m.containers[c]? := by
  unfold loadImageWith
  split
  · rfl
  · split
    · rfl
    · split
      · exact hpq { m with currentLoadings := m.currentLoadings - 1 } hc
      · exact List.getElem?_set_ne hj

theorem processQueueN_container (c : Nat) (n : Nat) :
    ∀ m : ImageManager, c ∉ m.loadingQueue →
      (processQueueN n m).containers[c]? = m.containers[c]? := by
  induction n with
  | zero => intro m _; rfl
  | succ n ih =>
    intro m hc
    unfold processQueueN
    split
    · rfl
    · rename_i j rest hq
      rw [hq] at hc
      have hj : j ≠ c := fun e => hc (e ▸ List.mem_cons_self _ _)
      have hr : c ∉ rest := fun e => hc (List.mem_cons_of_mem _ e)
      split
      · have h1 : c ∉ (loadImageWith (processQueueN n)
            { m with loadingQueue := rest, currentLoadings := m.currentLoadings + 1 }
            j 0).loadingQueue :=
          fun e => hr (loadImageWith_queue_sub _ (processQueueN_queue_sub n) _ j 0 c e)
        rw [ih _ h1]
        exact loadImageWith_container _ c ih _ j 0 hj hr
      · rfl

theorem processQueue_container (m : ImageManager) (c : Nat) (hc : c ∉ m.loadingQueue) :
    (processQueue m).containers[c]? = m.containers[c]? :=
  processQueueN_container c _ m hc

theorem isFailed_showErrorState (m : ImageManager) (c : Nat) (k : Container)
    (hk : m.containers[c]? = some k) : (m.showErrorState c).isFailed c = true := by
  unfold showErrorState updateContainer
  rw [hk]
  simp only
  rw [isFailed_set m c c k _ hk _ rfl, if_pos rfl]

theorem isFailed_release (m : ImageManager) (c : Nat) (k : Container)
    (hk : m.containers[c]? = some k) (hc : c ∉ m.loadingQueue) :
    (processQueue { m.showErrorState c with
      currentLoadings := (m.showErrorState c).currentLoadings - 1 }).isFailed c = true := by
  have hq : (m.showErrorState c).loadingQueue = m.loadingQueue := by
    unfold showErrorState updateContainer
    split <;> rfl
  have h1 := processQueue_container { m.showErrorState c with
      currentLoadings := (m.showErrorState c).currentLoadings - 1 } c
      (by rw [← hq] at hc; exact hc)
  have h2 := isFailed_showErrorState m c k hk
  unfold isFailed at h2 ⊢
  rw [h1]
  exact h2

theorem isFailed_handleImageError (m : ImageManager) (c r : Nat) (k : Container)
    (hk : m.containers[c]? = some k) (hc : c ∉ m.loadingQueue) (hr : m.maxRetries ≤ r) :
    (m.handleImageError c r).isFailed c = true := by
  unfold handleImageError
  simp only
  rw [if_neg (Nat.not_lt.mpr hr)]
  exact isFailed_release _ c k hk hc

theorem isFailed_handleImageTimeout (m : ImageManager) (c r : Nat) (k : Container)
    (hk : m.containers[c]? = some k) (hc : c ∉ m.loadingQueue) (hr : m.maxRetries ≤ r) :
    (m.handleImageTimeout c r).isFailed c = true := by
  unfold handleImageTimeout
  simp only
  rw [if_neg (Nat.not_lt.mpr hr)]
  exact isFailed_release _ c k hk hc

/-- A failing event of a container that is not waiting in the queue leaves it showing
the error element. -/
theorem failing_step (S : List String) (m : ImageManager) (hinv : Inv S m) (e : Event)
    (c : Nat) (hf : FailingEvent m c e) (hc : c ∉ m.loadingQueue) :
    (m.step e).isFailed c = true := by
  obtain ⟨i, h | h | h⟩ := hf
  · obtain ⟨r, src, ms, ht, hr, he⟩ := h
    have hok : TaskOk S (Task.attempt c r src ms) := hinv.2.2.1 _ (List.getElem?_mem ht)
    obtain ⟨k, hk, _⟩ := inv_container S m hinv c hok.2
    rcases he with he | he
    · subst he
      simp only [step, ht, resolve, Option.getD_some]
      exact isFailed_handleImageError _ c r k hk hc hr
    · subst he
      simp only [step, ht, resolve, Option.getD_some]
      exact isFailed_handleImageTimeout _ c r k hk hc hr
  · obtain ⟨r, ht, hr, he⟩ := h
    have hok : TaskOk S (Task.abortedError c r) := hinv.2.2.1 _ (List.getElem?_mem ht)
    obtain ⟨k, hk, _⟩ := inv_container S m hinv c hok.2
    subst he
    simp only [step, ht, resolve, Option.getD_some]
    exact isFailed_handleImageError _ c r k hk hc hr
  · obtain ⟨src, ht, he⟩ := h
    have hok : TaskOk S (Task.originalLoad c src) := hinv.2.2.1 _ (List.getElem?_mem ht)
    obtain ⟨k, hk, _⟩ := inv_container S m hinv c hok
    subst he
    simp only [step, ht, resolve, Option.getD_some]
    exact isFailed_showErrorState _ c k hk

end ImageManager

namespace ImageManager

/-! ## Retry bound and entry into Failed (C3) -/

/-- C3 (amended).  In every state reachable from a fresh page, every pending fetch of
`loadImage` has a retryCount of at most `maxRetries` and every pending retry timer will
call `loadImage` with a retryCount of at most `maxRetries`; a container comes to show the
error element of `showErrorState` only through a failing event of its own (its fetch with
retryCount `maxRetries` errs or times out, the error event of that fetch's aborted image
arrives, or the original image tried after the compressed one fails), and every failing
event of a container that is not waiting in the queue leaves it showing the error
element. -/
theorem failed_entry (cs : List Container) (obs : Bool) (es : List Event) (m : ImageManager)
    (hf : Fresh cs) (hm : m = (init cs obs).run es) (e : Event) (c : Nat) :
    (∀ (c2 r ms : Nat) (src : String), Task.attempt c2 r src ms ∈ m.tasks → r ≤ m.maxRetries) ∧
    (∀ c2 r d : Nat, Task.retryTimer c2 r d ∈ m.tasks → r + 1 ≤ m.maxRetries) ∧
    (m.isFailed c = false → (m.step e).isFailed c = true → FailingEvent m c e) ∧
    (FailingEvent m c e → c ∉ m.loadingQueue → (m.step e).isFailed c = true) := by
  have hinv : Inv (cs.map Container.src) m := by
    rw [hm]
    exact inv_run _ es _ (inv_init cs obs hf)
  refine ⟨?_, ?_, ?_, ?_⟩
  · intro c2 r ms src ht
    rw [hinv.1]
    exact (hinv.2.2.1 _ ht).1
  · intro c2 r d ht
    rw [hinv.1]
    exact (hinv.2.2.1 _ ht).1
  · intro h0 h1
    rcases step_failed m e c h1 with h2 | h2
    · rw [h0] at h2
      cases h2
    · exact h2
  · intro h0 h1
    exact failing_step _ m hinv e c h0 h1

theorem fresh_examplePage : Fresh examplePage := by
  intro k hk
  simp only [examplePage, List.mem_cons, List.mem_singleton, List.not_mem_nil, or_false] at hk
  rcases hk with h | h | h | h | h | h | h <;> subst h <;> exact ⟨rfl, rfl⟩

/-- Witness of `failed_entry`: the example page when the original image of container 3,
tried after the compressed one, is about to fail. -/
theorem failed_entry_witness :
    Fresh examplePage ∧
    exampleOriginalPending = (init examplePage true).run traceFallbackFails ∧
    ((∀ (c2 r ms : Nat) (src : String),
        Task.attempt c2 r src ms ∈ exampleOriginalPending.tasks →
          r ≤ exampleOriginalPending.maxRetries) ∧
      (∀ c2 r d : Nat, Task.retryTimer c2 r d ∈ exampleOriginalPending.tasks →
          r + 1 ≤ exampleOriginalPending.maxRetries) ∧
      (exampleOriginalPending.isFailed 3 = false →
        (exampleOriginalPending.step (Event.image 1 Outcome.error)).isFailed 3 = true →
        FailingEvent exampleOriginalPending 3 (Event.image 1 Outcome.error)) ∧
      (FailingEvent exampleOriginalPending 3 (Event.image 1 Outcome.error) →
        3 ∉ exampleOriginalPending.loadingQueue →
        (exampleOriginalPending.step (Event.image 1 Outcome.error)).isFailed 3 = true)) :=
  ⟨fresh_examplePage, rfl,
    failed_entry examplePage true traceFallbackFails exampleOriginalPending
      fresh_examplePage rfl (Event.image 1 Outcome.error) 3⟩

/-- C3 (counterexample).  On the example page container 3 comes to show the error element
when the original image tried after the compressed one fails: at that moment its fetch
with retryCount 2 is still pending, and no fetch with retryCount 3 was ever started for
it. -/
theorem failed_before_last_attempt_counterexample :
    exampleOriginalPending.tasks
      = [Task.attempt 3 2 "img/camera/4.jpg" 10000, Task.originalLoad 3 "img/camera/4.jpg"] ∧
    exampleOriginalPending.isFailed 3 = false ∧
    (exampleOriginalPending.step (Event.image 1 Outcome.error)).isFailed 3 = true ∧
    (exampleOriginalPending.step (Event.image 1 Outcome.error)).tasks
      = [Task.attempt 3 2 "img/camera/4.jpg" 10000] ∧
    (∀ n ∈ List.range 15, ∀ r ∈ attemptRetries
      ((init examplePage true).run (traceFallbackFails.take n)) 3, r < 3) := by
  decide

end ImageManager

namespace ImageManager

/-! ## Manual retry in reachable states (C11) -/

/-- C11 (amended).  In every state reachable from a fresh page, for every container (at any
index, 0 included) that shows the error element of `showErrorState` and is not marked
loaded `success`: its source is still the source the page gave it, and a click on its
retry button starts one new fetch with retryCount 0 of that source, the container showing
the loading state; the other pending tasks, the queue and `currentLoadings` are left as
they are. -/
theorem manual_retry_starts_fetch (cs : List Container) (obs : Bool) (es : List Event)
    (m : ImageManager) (hf : Fresh cs) (hm : m = (init cs obs).run es) (c : Nat)
    (k : Container) (hk : m.containers[c]? = some k) (he : k.errorShown = true)
    (hl : k.loaded ≠ some Marker.success) :
    (cs.map Container.src)[c]? = some k.src ∧
    (m.step (Event.retryClick c)).tasks = m.tasks ++ [Task.attempt c 0 k.src m.timeout] ∧
    (m.step (Event.retryClick c)).containers = m.containers.set c (showLoadingState k) ∧
    (m.step (Event.retryClick c)).loadingQueue = m.loadingQueue ∧
    (m.step (Event.retryClick c)).currentLoadings = m.currentLoadings := by
  have hinv : Inv (cs.map Container.src) m := by
    rw [hm]
    exact inv_run _ es _ (inv_init cs obs hf)
  obtain ⟨hb1, hb2⟩ := hinv.2.2.2 c k hk
  obtain ⟨hbtn, hs⟩ := hb2 he
  have hb : k.retryBtn = some { src := k.src, containerId := (c : Int) } := by
    cases hx : k.retryBtn with
    | none => exact absurd hx hbtn
    | some b => rw [hb1 b hx]
  have hsrc : (cs.map Container.src)[c]? = some k.src := by
    rw [← hinv.2.1]
    simp [sources, hk]
  rw [retryClick_fetch m c k hk he hb hs hl]
  exact ⟨hsrc, rfl, rfl, rfl, rfl⟩

/-- Witness of `manual_retry_starts_fetch`: container 3 of the example page, Failed after
the compressed and the original image failed, its fetch with retryCount 2 pending. -/
theorem manual_retry_starts_fetch_witness :
    Fresh examplePage ∧
    exampleFailed
      = (init examplePage true).run (traceFallbackFails ++ [Event.image 1 Outcome.error]) ∧
    exampleFailed.containers[3]?
      = some { src := "img/camera/4.jpg", loading := true, errorShown := true,
               retryBtn := some { src := "img/camera/4.jpg", containerId := 3 } } ∧
    ((examplePage.map Container.src)[3]? = some "img/camera/4.jpg" ∧
      (exampleFailed.step (Event.retryClick 3)).tasks
        = exampleFailed.tasks ++ [Task.attempt 3 0 "img/camera/4.jpg" exampleFailed.timeout] ∧
      (exampleFailed.step (Event.retryClick 3)).containers
        = exampleFailed.containers.set 3
            (showLoadingState
              { src := "img/camera/4.jpg", loading := true, errorShown := true,
                retryBtn := some { src := "img/camera/4.jpg", containerId := 3 } }) ∧
      (exampleFailed.step (Event.retryClick 3)).loadingQueue = exampleFailed.loadingQueue ∧
      (exampleFailed.step (Event.retryClick 3)).currentLoadings
        = exampleFailed.currentLoadings) :=
  ⟨fresh_examplePage, rfl, by decide,
    manual_retry_starts_fetch examplePage true
      (traceFallbackFails ++ [Event.image 1 Outcome.error]) exampleFailed fresh_examplePage rfl 3
      { src := "img/camera/4.jpg", loading := true, errorShown := true,
        retryBtn := some { src := "img/camera/4.jpg", containerId := 3 } }
      (by decide) rfl (by decide)⟩

/-- C11 (counterexample).  On the example page container 0 is fetched twice (by its
start-up timer and by the observer); the first fetch and its three retries err, so that
`showErrorState` runs for container 0, and the second fetch then loads: the container
shows the retry button and is marked `success`.  A click on the button starts no fetch:
`loadImage` returns at its loaded guard after decrementing `currentLoadings`. -/
theorem manual_retry_no_fetch_counterexample :
    exampleFailedLoaded.isFailed 0 = true ∧
    exampleFailedLoaded.containers[0]?
      = some { src := "img/camera/1.jpg", loaded := some Marker.success,
               lazySrc := some (Url.path "img/camera/1.jpg"), errorShown := true,
               retryBtn := some { src := "img/camera/1.jpg", containerId := 0 } } ∧
    exampleFailedLoaded.fetchCount 0 = 0 ∧
    (exampleFailedLoaded.step (Event.retryClick 0)).tasks = exampleFailedLoaded.tasks ∧
    (exampleFailedLoaded.step (Event.retryClick 0)).fetchCount 0 = 0 ∧
    (exampleFailedLoaded.step (Event.retryClick 0)).currentLoadings
      = exampleFailedLoaded.currentLoadings - 1 := by
  decide

end ImageManager

/-! ## Doubles: the quotient by 3600 and by 60 -/

theorem log2Fuel_spec (fuel : Nat) : ∀ n : Nat, n ≤ fuel → 1 ≤ n →
    2 ^ log2Fuel fuel n ≤ n ∧ n < 2 ^ (log2Fuel fuel n + 1) := by
  induction fuel with
  | zero => intro n h1 h2; omega
  | succ fuel ih =>
    intro n h1 h2
    unfold log2Fuel
    by_cases hn : n < 2
    · rw [if_pos hn]
      simp only [pow_zero, zero_add, pow_one]
      omega
    · rw [if_neg hn]
      obtain ⟨a, b⟩ := ih (n / 2) (by omega) (by omega)
      constructor
      · rw [pow_succ]
        omega
      · rw [pow_succ]
        omega

theorem ilog2_spec (n : Nat) (h : 1 ≤ n) : 2 ^ ilog2 n ≤ n ∧ n < 2 ^ (ilog2 n + 1) :=
  log2Fuel_spec n n (Nat.le_refl n) h

theorem ilog2_lt (n b : Nat) (h : 1 ≤ n) (hb : n < 2 ^ b) : ilog2 n < b := by
  by_contra hc
  have h1 : 2 ^ b ≤ 2 ^ ilog2 n := Nat.pow_le_pow_right (by decide) (Nat.le_of_not_lt hc)
  have h2 := (ilog2_spec n h).1
  omega

theorem ilog2_ge (n b : Nat) (hb : 2 ^ b ≤ n) : b ≤ ilog2 n := by
  by_contra hc
  have hn : 1 ≤ n := Nat.le_trans (Nat.one_le_two_pow) hb
  have h1 : 2 ^ (ilog2 n + 1) ≤ 2 ^ b := Nat.pow_le_pow_right (by decide) (by omega)
  have h2 := (ilog2_spec n hn).2
  omega

/-- Rounding `p * 2 ^ t / q` to the nearest integer does not reach the next multiple of
`2 ^ t` as long as `p` is more than `q / 2 ^ (t + 1)` below the next multiple of `q`. -/
theorem roundHalfEven_floor (p q t : Nat) (hq : 0 < q)
    (h : q < 2 ^ (t + 1) * (q - p % q)) :
    roundHalfEven (p * 2 ^ t) q / 2 ^ t = p / q := by
  have hT : 0 < 2 ^ t := Nat.two_pow_pos t
  generalize hTe : 2 ^ t = T at hT
  have h2T : 2 ^ (t + 1) = 2 * T := by rw [pow_succ, hTe, Nat.mul_comm]
  rw [h2T] at h
  have hr : p % q < q := Nat.mod_lt _ hq
  have hp : q * (p / q) + p % q = p := Nat.div_add_mod p q
  have hA : q * (p * T / q) + p * T % q = p * T := Nat.div_add_mod (p * T) q
  have hrem : p * T % q < q := Nat.mod_lt _ hq
  generalize hK : p / q = K at hp
  generalize hr0 : p % q = r at hp hr h
  generalize hn0 : p * T / q = n0 at hA
  generalize hrm : p * T % q = rem at hA hrem
  -- products as atoms
  have e1 : p * T = q * K * T + r * T := by rw [← hp, Nat.add_mul]
  have lo : K * T ≤ n0 := by
    by_contra hc
    have h3 : n0 + 1 ≤ K * T := by omega
    have h4 : q * (n0 + 1) ≤ q * (K * T) := Nat.mul_le_mul_left q h3
    have h5 : q * (K * T) = q * K * T := by ring
    have h6 : q * (n0 + 1) = q * n0 + q := by ring
    omega
  have hi : n0 < (K + 1) * T := by
    by_contra hc
    have h3 : (K + 1) * T ≤ n0 := by omega
    have h4 : q * ((K + 1) * T) ≤ q * n0 := Nat.mul_le_mul_left q h3
    have h5 : q * ((K + 1) * T) = q * K * T + q * T := by ring
    have h6 : r * T < q * T := Nat.mul_lt_mul_of_pos_right hr hT
    omega
  have key : roundHalfEven (p * T) q < (K + 1) * T := by
    unfold roundHalfEven
    rw [hn0, hrm]
    split
    · rename_i hc
      have h2rem : q ≤ 2 * rem := by omega
      by_contra hcon
      have h3 : n0 + 1 = (K + 1) * T := by omega
      have h4 : q * (n0 + 1) = q * ((K + 1) * T) := by rw [h3]
      have h5 : q * ((K + 1) * T) = q * K * T + q * T := by ring
      have h6 : q * (n0 + 1) = q * n0 + q := by ring
      -- rem + (q - r) * T = q
      have hu : r + (q - r) = q := by omega
      have h7 : r * T + (q - r) * T = q * T := by rw [← Nat.add_mul, hu]
      have h8 : 2 * T * (q - r) = 2 * ((q - r) * T) := by ring
      omega
    · exact hi
  have lo2 : K * T ≤ roundHalfEven (p * T) q := by
    unfold roundHalfEven
    rw [hn0]
    split <;> omega
  apply Nat.div_eq_of_lt_le
  · rw [Nat.mul_comm] at lo2
    rw [Nat.mul_comm]
    exact lo2
  · exact key

/-- A whole-number double with more than 53 binary digits is a multiple of the power of
two above those digits. -/
theorem isDouble_dvd (v : Nat) (hd : isDouble v = true) (hv : 2 ^ 53 ≤ v) :
    2 ^ (ilog2 v - 52) ∣ v := by
  have hl : 53 ≤ ilog2 v := ilog2_ge v 53 hv
  have hv0 : v ≠ 0 := by omega
  have h1 : ilog2 1 = 0 := by decide
  have hlt : ¬ v * 2 ^ 0 < 1 * 2 ^ ilog2 v := by
    have := (ilog2_spec v (by omega)).1
    simp only [pow_zero, Nat.mul_one, Nat.one_mul]
    omega
  have hle : ¬ ilog2 v ≤ 52 + 0 := by omega
  simp only [isDouble, roundNat, toDouble, hv0, if_false, h1, hlt, hle, Nat.div_one,
    decide_eq_true_eq] at hd
  exact Dvd.intro_left _ hd

theorem parseInt_small (n d : Nat) (h : n / d < 2 ^ 53) : parseInt (n, d) = n / d := by
  simp only [parseInt, h, if_true]

theorem numberToString_small (n : Nat) (h : n < 2 ^ 53) : numberToString n = Nat.repr n := by
  simp only [numberToString, h, if_true]

theorem ilog2_3600 : ilog2 3600 = 11 := by decide

theorem ilog2_60 : ilog2 60 = 5 := by decide

/-- The shape of `toDouble v q` when the quotient is below 2^53 in magnitude of scale. -/
theorem toDouble_scaled (v q : Nat) (hv : v ≠ 0) (t : Nat)
    (ht : (if v * 2 ^ ilog2 q < q * 2 ^ ilog2 v then 53 + ilog2 q else 52 + ilog2 q)
      = ilog2 v + t) :
    toDouble v q = (roundHalfEven (v * 2 ^ t) q, 2 ^ t) := by
  unfold toDouble
  simp only [hv, if_false, ht]
  have h1 : ilog2 v ≤ ilog2 v + t := Nat.le_add_right _ _
  simp only [h1, if_true, Nat.add_sub_cancel_left]

/-- For a whole-number double `v` below 3600 * 2^46 + 3584 the rounded quotient
`v / 3600` has the same whole part as the exact quotient. -/
theorem parseInt_div_3600 (v : Nat) (hd : isDouble v = true) (hv : v < 253327479039593984) :
    parseInt (toDouble v 3600) = v / 3600 := by
  by_cases h0 : v = 0
  · subst h0
    decide
  have hpos : 1 ≤ v := Nat.pos_of_ne_zero h0
  obtain ⟨hlo, hhi⟩ := ilog2_spec v hpos
  have hl58 : ilog2 v < 58 := ilog2_lt v 58 hpos (by omega)
  have hq : v / 3600 < 2 ^ 53 := by
    have : v / 3600 ≤ v := Nat.div_le_self _ _
    have : v / 3600 < 2 ^ 47 := by
      apply Nat.div_lt_of_lt_mul
      omega
    omega
  have main : ∃ t : Nat,
      (if v * 2 ^ ilog2 3600 < 3600 * 2 ^ ilog2 v then 53 + ilog2 3600 else 52 + ilog2 3600)
        = ilog2 v + t ∧ 3600 < 2 ^ (t + 1) * (3600 - v % 3600) := by
    rw [ilog2_3600]
    by_cases hs : v < 2 ^ 53
    · have hl53 : ilog2 v < 53 := ilog2_lt v 53 hpos hs
      have hr : 1 ≤ 3600 - v % 3600 := by omega
      have hpow : ∀ t : Nat, 11 ≤ t → 3600 < 2 ^ (t + 1) * (3600 - v % 3600) := by
        intro t ht
        have h1 : 2 ^ 12 ≤ 2 ^ (t + 1) := Nat.pow_le_pow_right (by decide) (by omega)
        have h2 : 2 ^ (t + 1) * 1 ≤ 2 ^ (t + 1) * (3600 - v % 3600) :=
          Nat.mul_le_mul_left _ hr
        omega
      split
      · exact ⟨64 - ilog2 v, by omega, hpow _ (by omega)⟩
      · exact ⟨63 - ilog2 v, by omega, hpow _ (by omega)⟩
    · have hge : 2 ^ 53 ≤ v := Nat.le_of_not_lt hs
      have hl53 : 53 ≤ ilog2 v := ilog2_ge v 53 hge
      obtain ⟨c, hc⟩ := isDouble_dvd v hd hge
      generalize hlp : ilog2 v = lp at *
      interval_cases lp
      all_goals norm_num at hc hlo hhi ⊢
      · split
        · exact ⟨11, rfl, by norm_num; omega⟩
        · exact ⟨10, rfl, by norm_num; omega⟩
      · split
        · exact ⟨10, rfl, by norm_num; omega⟩
        · exact ⟨9, rfl, by norm_num; omega⟩
      · split
        · exact ⟨9, rfl, by norm_num; omega⟩
        · exact ⟨8, rfl, by norm_num; omega⟩
      · split
        · exact ⟨8, rfl, by norm_num; omega⟩
        · exact ⟨7, rfl, by norm_num; omega⟩
      · split
        · exact ⟨7, rfl, by norm_num; omega⟩
        · rename_i hb
          have ha : 70368744177664 ≤ v / 3600 := by
            apply (Nat.le_div_iff_mul_le (by decide)).mpr
            omega
          exact ⟨6, rfl, by norm_num; omega⟩
  obtain ⟨t, ht, hcond⟩ := main
  rw [toDouble_scaled v 3600 h0 t ht]
  have hfl := roundHalfEven_floor v 3600 t (by decide) hcond
  rw [parseInt_small _ _ (by rw [hfl]; exact hq), hfl]

/-- For a whole number `v` below 3600 the rounded quotient `v / 60` has the same whole
part as the exact quotient. -/
theorem parseInt_div_60 (v : Nat) (hv : v < 3600) : parseInt (toDouble v 60) = v / 60 := by
  by_cases h0 : v = 0
  · subst h0
    decide
  have hpos : 1 ≤ v := Nat.pos_of_ne_zero h0
  have hl12 : ilog2 v < 12 := ilog2_lt v 12 hpos (by omega)
  have hq : v / 60 < 2 ^ 53 := by
    have : v / 60 ≤ v := Nat.div_le_self _ _
    omega
  have hr : 1 ≤ 60 - v % 60 := by omega
  have hpow : ∀ t : Nat, 11 ≤ t → 60 < 2 ^ (t + 1) * (60 - v % 60) := by
    intro t ht
    have h1 : 2 ^ 12 ≤ 2 ^ (t + 1) := Nat.pow_le_pow_right (by decide) (by omega)
    have h2 : 2 ^ (t + 1) * 1 ≤ 2 ^ (t + 1) * (60 - v % 60) := Nat.mul_le_mul_left _ hr
    omega
  have main : ∃ t : Nat,
      (if v * 2 ^ ilog2 60 < 60 * 2 ^ ilog2 v then 53 + ilog2 60 else 52 + ilog2 60)
        = ilog2 v + t ∧ 60 < 2 ^ (t + 1) * (60 - v % 60) := by
    rw [ilog2_60]
    split
    · exact ⟨58 - ilog2 v, by omega, hpow _ (by omega)⟩
    · exact ⟨57 - ilog2 v, by omega, hpow _ (by omega)⟩
  obtain ⟨t, ht, hcond⟩ := main
  rw [toDouble_scaled v 60 h0 t ht]
  have hfl := roundHalfEven_floor v 60 t (by decide) hcond
  rw [parseInt_small _ _ (by rw [hfl]; exact hq), hfl]

/-! ## Audio player: the time display (C14) -/

theorem digitChar_small : ∀ d : Nat, d < 10 → (Nat.digitChar d).toNat < 65536 := by
  decide

theorem toDigitsCore_small (f : Nat) : ∀ (n : Nat) (ds : List Char),
    (∀ c ∈ ds, c.toNat < 65536) → ∀ c ∈ Nat.toDigitsCore 10 f n ds, c.toNat < 65536 := by
  induction f with
  | zero => intro n ds h; simpa [Nat.toDigitsCore] using h
  | succ f ih =>
    intro n ds h
    have hd : ∀ c ∈ Nat.digitChar (n % 10) :: ds, c.toNat < 65536 := by
      intro c hmem
      rcases List.mem_cons.mp hmem with h1 | h1
      · rw [h1]
        exact digitChar_small _ (Nat.mod_lt _ (by decide))
      · exact h c h1
    simp only [Nat.toDigitsCore]
    split
    · exact hd
    · exact ih _ _ hd

theorem repr_small (n : Nat) : ∀ c ∈ (Nat.repr n).data, c.toNat < 65536 := by
  simp only [Nat.repr, Nat.toDigits, List.asString]
  exact toDigitsCore_small _ _ _ (by simp)

theorem jsLength_chars (cs : List Char) (h : ∀ c ∈ cs, c.toNat < 65536) :
    (cs.map (fun c => if c.toNat < 65536 then 1 else 2)).sum = cs.length := by
  induction cs with
  | nil => rfl
  | cons c cs ih =>
    have hc : c.toNat < 65536 := h c (List.mem_cons_self _ _)
    have hcs : ∀ x ∈ cs, x.toNat < 65536 := fun x hx => h x (List.mem_cons_of_mem _ hx)
    simp only [List.map_cons, List.sum_cons, hc, if_true, ih hcs, List.length_cons]
    omega

theorem jsLength_repr (n : Nat) : jsLength (Nat.repr n) = (Nat.repr n).length := by
  unfold jsLength
  rw [jsLength_chars _ (repr_small n)]
  rfl

theorem formatTime_two (a b : String) (ha : ':' ∉ a.data) (hb : ':' ∉ b.data) :
    formatTime (a ++ ":" ++ b) = padPart a ++ ":" ++ padPart b := by
  have hs : split (a ++ ":" ++ b) ':' = [a, b] := by
    simp [split, String.data_append, splitChars_append ':' a.data _ ha,
      splitChars_single ':' b.data hb]
  simp [formatTime, hs]

theorem formatTime_three (a b c : String) (ha : ':' ∉ a.data) (hb : ':' ∉ b.data)
    (hc : ':' ∉ c.data) :
    formatTime (a ++ ":" ++ b ++ ":" ++ c) = padPart a ++ ":" ++ padPart b ++ ":" ++ padPart c := by
  have hs : split (a ++ ":" ++ b ++ ":" ++ c) ':' = [a, b, c] := by
    simp [split, String.data_append, splitChars_append ':' a.data _ ha,
      splitChars_append ':' b.data _ hb, splitChars_single ':' c.data hc]
  simp [formatTime, hs]

theorem repr_length_eq_one_iff (n : Nat) : (Nat.repr n).length = 1 ↔ n < 10 := by
  simp only [Nat.repr, Nat.toDigits, List.asString, String.length, Nat.toDigitsCore]
  by_cases h : n < 10
  · have h0 : n / 10 = 0 := Nat.div_eq_of_lt h
    simp [h0, h]
  · have h0 : ¬ n / 10 = 0 := by omega
    simp only [h0, if_false, h, iff_false]
    obtain ⟨f, rfl⟩ : ∃ f, n = f + 1 := ⟨n - 1, by omega⟩
    simp only [Nat.toDigitsCore]
    split
    · simp
    · have := toDigitsCore_length_le f ((f + 1) / 10 / 10)
        [Nat.digitChar ((f + 1) / 10 % 10), Nat.digitChar ((f + 1) % 10)]
      simp only [List.length_cons, List.length_nil] at this
      omega

theorem padPart_repr (n : Nat) : padPart (Nat.repr n) = twoDigits n := by
  unfold padPart twoDigits
  rw [jsLength_repr]
  by_cases h : n < 10
  · simp [h, (repr_length_eq_one_iff n).mpr h]
  · have h1 : ¬ (Nat.repr n).length = 1 := fun hl => h ((repr_length_eq_one_iff n).mp hl)
    simp [h, h1]

theorem twoDigits_length (n : Nat) : 2 ≤ (twoDigits n).length := by
  unfold twoDigits
  have h1 := repr_length_pos n
  by_cases h : n < 10
  · rw [if_pos h, String.length_append]
    have : "0".length = 1 := rfl
    omega
  · rw [if_neg h]
    have h2 : ¬ (Nat.repr n).length = 1 := fun hl => h ((repr_length_eq_one_iff n).mp hl)
    omega

/-- C14 (amended).  For every whole number of seconds `v` that a double holds and that is
below 253327479039593984 = 3600 * 2^46 + 3584, `transTime v` is the display the
specification describes: minutes `(v mod 3600) div 60` and seconds `v mod 60` joined by
`:` when `v < 3600`, preceded by the hours `v div 3600` otherwise, where a one-digit
component is padded with a single `0` and a longer one is unchanged; every component
has at least two characters; 65 gives `01:05` and 3661 gives `01:01:01`. -/
theorem transTime_display (v : Nat) (hd : isDouble v = true) (hv : v < 253327479039593984) :
    transTime v = transTimeSpec v ∧
    (v < 3600 → transTime v = twoDigits (v % 3600 / 60) ++ ":" ++ twoDigits (v % 60)) ∧
    (3600 ≤ v → transTime v
      = twoDigits (v / 3600) ++ ":" ++ twoDigits (v % 3600 / 60) ++ ":" ++ twoDigits (v % 60)) ∧
    (∀ n : Nat, 2 ≤ (twoDigits n).length ∧
      (n < 10 → twoDigits n = "0" ++ Nat.repr n) ∧ (10 ≤ n → twoDigits n = Nat.repr n)) ∧
    (∀ part : String, formatTime part = padPart part ∨ ':' ∈ part.data) ∧
    transTime 65 = "01:05" ∧ transTime 3661 = "01:01:01" := by
  have hh : parseInt (toDouble v 3600) = v / 3600 := parseInt_div_3600 v hd hv
  have hm : parseInt (toDouble (v % 3600) 60) = v % 3600 / 60 :=
    parseInt_div_60 _ (Nat.mod_lt _ (by decide))
  have hs : parseInt (v % 3600 % 60, 1) = v % 60 := by
    rw [parseInt_small _ _ (by rw [Nat.div_one]; omega), Nat.div_one]
    omega
  have nh : numberToString (v / 3600) = Nat.repr (v / 3600) :=
    numberToString_small _ (by
      have : v / 3600 ≤ v := Nat.div_le_self _ _
      omega)
  have nm : numberToString (v % 3600 / 60) = Nat.repr (v % 3600 / 60) :=
    numberToString_small _ (by omega)
  have ns : numberToString (v % 60) = Nat.repr (v % 60) :=
    numberToString_small _ (by omega)
  have hmain : transTime v = transTimeSpec v := by
    unfold transTime transTimeSpec
    simp only [hh, hm, hs, nh, nm, ns]
    by_cases hv : v < 3600
    · have h0 : ¬ v / 3600 > 0 := by
        have : v / 3600 = 0 := Nat.div_eq_of_lt hv
        omega
      simp only [h0, hv, if_true, if_false, ← padPart_repr]
      exact formatTime_two _ _ (repr_no_colon _) (repr_no_colon _)
    · have h0 : v / 3600 > 0 := Nat.div_pos (Nat.le_of_not_lt hv) (by decide)
      simp only [h0, hv, if_true, if_false, ← padPart_repr]
      exact formatTime_three _ _ _ (repr_no_colon _) (repr_no_colon _) (repr_no_colon _)
  refine ⟨hmain, ?_, ?_, ?_, ?_, by decide, by decide⟩
  · intro hv
    rw [hmain]
    simp [transTimeSpec, hv]
  · intro hv
    rw [hmain]
    simp [transTimeSpec, Nat.not_lt.mpr hv]
  · intro n
    refine ⟨twoDigits_length n, ?_, ?_⟩
    · intro h; simp [twoDigits, h]
    · intro h; simp [twoDigits, Nat.not_lt.mpr h]
  · intro part
    by_cases hp : ':' ∈ part.data
    · exact Or.inr hp
    · left
      have hs : split part ':' = [part] := by
        simp [split, splitChars_single ':' part.data hp]
      simp [formatTime, hs]

/-- Witness of `transTime_display`: the largest double below the bound. -/
theorem transTime_display_witness :
    isDouble 253327479039593952 = true ∧ 253327479039593952 < 253327479039593984 ∧
    transTime 253327479039593952 = transTimeSpec 253327479039593952 :=
  ⟨by decide, by decide, (transTime_display 253327479039593952 (by decide) (by decide)).1⟩

/-- C14 (counterexample).  The whole number 253327479039593984 = 3600 * 2^46 + 3584 is a
double; its quotient by 3600 lies 16/3600 below 2^46 + 1, less than half the distance of
two doubles there, and rounds to 2^46 + 1: `transTime` shows 70368744177665 hours where
`v div 3600` is 70368744177664.  The same happens at 253473221207775584. -/
theorem transTime_hours_counterexample :
    isDouble 253327479039593984 = true ∧
    253327479039593984 / 3600 = 70368744177664 ∧
    transTime 253327479039593984 = "70368744177665:59:44" ∧
    transTimeSpec 253327479039593984 = "70368744177664:59:44" ∧
    transTime 253327479039593984 ≠ transTimeSpec 253327479039593984 ∧
    isDouble 253473221207775584 = true ∧
    253473221207775584 / 3600 = 70409228113270 ∧
    transTime 253473221207775584 = "70409228113271:59:44" := by
  decide

set_option maxRecDepth 100000 in
/-- Values of the model beyond the whole numbers below 2^53: the quotient of 3600 * 2^70
by 3600 is 2^70, whose text `1.1805916207174113e+21` starts with the digit 1; a number
of 22 digits is written with an exponent; a part made of one character outside the Basic
Multilingual Plane has length 2 and is not padded. -/
theorem transTime_large_examples :
    transTime (3600 * 2 ^ 70) = "01:00:00" ∧
    numberToString (2 ^ 70) = "1.1805916207174113e+21" ∧
    numberToString (2 ^ 60) = "1152921504606847000" ∧
    transTime (3600 * 2 ^ 60) = "1152921504606847000:00:00" ∧
    formatTime "😀:5" = "😀:05" ∧ formatTime "7:5" = "07:05" := by
  decide

end Blog
